import Mathlib

/-!
Verification of the Deeting MCP tool-supervisor core.

This file shallowly embeds the Rust source of the repository's two
implementations of the MCP catalog/supervisor:

* `src/desktop/backend/src/mcp/…` — the axum desktop backend ("desktop"),
* `src/deeting/src-tauri/src/mcp/…` — the Tauri side ("tauri").

JSON values are modelled by an inductive `Json`; objects keep their field
order (an association list).  The `serde_json` map type's order behavior is
controlled by the crate manifest, which is not part of the source tree here;
the specification states that the Tauri-side hash is non-canonical, i.e.
that object key order is observable, so objects are modelled
order-preserving.  TEXT database columns that hold serialized JSON are
modelled by the parsed `Json` value they serialize.

All definitions are executable; theorems are settled by evaluation or by
structural reasoning over the embedded operations.
-/

mutual
/-- JSON values as manipulated by `serde_json::Value` in the source.
Numbers are restricted to integers (every number appearing in the
manifests and claims under study is integral). Object fields preserve
their textual/insertion order.  The field and item lists are mutual
inductives rather than `List` so that every recursion over values is
structural. -/
inductive Json where
  | null : Json
  | bool (b : Bool) : Json
  | num (n : Int) : Json
  | str (s : String) : Json
  | arr (items : JsonItems) : Json
  | obj (fields : JsonFields) : Json

/-- The items of a JSON array. -/
inductive JsonItems where
  | nil : JsonItems
  | cons (hd : Json) (tl : JsonItems) : JsonItems

/-- The ordered fields of a JSON object. -/
inductive JsonFields where
  | nil : JsonFields
  | cons (key : String) (val : Json) (tl : JsonFields) : JsonFields
end

/-- Build a field list from a `List` literal (notation helper only). -/
def JsonFields.ofList : List (String × Json) → JsonFields
  | [] => .nil
  | (k, v) :: rest => .cons k v (JsonFields.ofList rest)

/-- Build an object value from a `List` literal (notation helper only). -/
def Json.mkObj (l : List (String × Json)) : Json := .obj (JsonFields.ofList l)

/-- Build an item list from a `List` literal (notation helper only). -/
def JsonItems.ofList : List Json → JsonItems
  | [] => .nil
  | x :: rest => .cons x (JsonItems.ofList rest)

/-- Build an array value from a `List` literal (notation helper only). -/
def Json.mkArr (l : List Json) : Json := .arr (JsonItems.ofList l)

/-- The items of an array as a `List`. -/
def JsonItems.toList : JsonItems → List Json
  | .nil => []
  | .cons x rest => x :: JsonItems.toList rest

/-- The fields of an object as a `List` of pairs. -/
def JsonFields.toList : JsonFields → List (String × Json)
  | .nil => []
  | .cons k v rest => (k, v) :: JsonFields.toList rest

/-- JSON string escaping as performed by `serde_json`'s compact serializer:
quote, backslash, and the control characters are escaped; everything else
passes through. -/
def escapeJsonChar (c : Char) : String :=
  if c = '"' then "\\\""
  else if c = '\\' then "\\\\"
  else if c = '\x08' then "\\b"
  else if c = '\x0c' then "\\f"
  else if c = '\n' then "\\n"
  else if c = '\r' then "\\r"
  else if c = '\t' then "\\t"
  else if c.toNat < 0x20 then
    let hi := c.toNat / 16
    let lo := c.toNat % 16
    let hexDigit := fun (n : Nat) =>
      if n < 10 then Char.ofNat (48 + n) else Char.ofNat (87 + n)
    "\\u00" ++ String.mk [hexDigit hi, hexDigit lo]
  else String.mk [c]

/-- A JSON string literal in compact serialized form. -/
def renderJsonString (s : String) : String :=
  "\"" ++ String.join (s.data.map escapeJsonChar) ++ "\""

mutual
/-- Compact serialization of a JSON value, as `serde_json::to_string`
produces it: no whitespace, object fields in stored order. -/
def Json.render : Json → String
  | .null => "null"
  | .bool true => "true"
  | .bool false => "false"
  | .num n => toString n
  | .str s => renderJsonString s
  | .arr items => "[" ++ JsonItems.render items ++ "]"
  | .obj fields => "\x7b" ++ JsonFields.render fields ++ "\x7d"

/-- Comma-separated serialization of array items. -/
def JsonItems.render : JsonItems → String
  | .nil => ""
  | .cons x .nil => x.render
  | .cons x rest => x.render ++ "," ++ JsonItems.render rest

/-- Comma-separated serialization of object fields. -/
def JsonFields.render : JsonFields → String
  | .nil => ""
  | .cons k v .nil => renderJsonString k ++ ":" ++ v.render
  | .cons k v rest => renderJsonString k ++ ":" ++ v.render ++ "," ++ JsonFields.render rest
end

/-- Lexicographic comparison of character lists by code point. -/
def charListLt : List Char → List Char → Bool
  | [], [] => false
  | [], _ :: _ => true
  | _ :: _, [] => false
  | a :: as, b :: bs =>
      if a.toNat < b.toNat then true
      else if b.toNat < a.toNat then false
      else charListLt as bs

/-- Strict string comparison used while sorting keys; total order agreeing
with Rust's `str` ordering (UTF-8 byte order coincides with code-point
order). -/
def strLtB (a b : String) : Bool := charListLt a.data b.data

/-- Reflexive string comparison derived from `strLtB` by totality. -/
def strLeB (a b : String) : Bool := !(strLtB b a)

/-- Insert a field in front of the first entry with a key not below its
own (insertion-sort step). -/
def insertFieldByKey (k : String) (v : Json) : JsonFields → JsonFields
  | .nil => .cons k v .nil
  | .cons k2 v2 tl =>
      if strLeB k k2 then .cons k v (.cons k2 v2 tl)
      else .cons k2 v2 (insertFieldByKey k v tl)

/-- Bring a field list into key-sorted order, mirroring iteration of the
sorted key list in `canonicalize_json` (keys are pairwise distinct in any
value coming from a `serde_json` map, so stability is immaterial). -/
def sortFieldsByKey : JsonFields → JsonFields
  | .nil => .nil
  | .cons k v rest => insertFieldByKey k v (sortFieldsByKey rest)

mutual
/-- `canonicalize_json` from `desktop/backend/src/mcp/hash.rs`: recursively
sort object keys lexicographically, leave arrays ordered, copy scalars.
The source walks the sorted key list and re-inserts each looked-up value;
with distinct keys this equals canonicalizing each value and then sorting
the fields by key, which is how it is phrased here. -/
def canonicalizeJson : Json → Json
  | .null => .null
  | .bool b => .bool b
  | .num n => .num n
  | .str s => .str s
  | .arr items => .arr (canonicalizeItems items)
  | .obj fields => .obj (sortFieldsByKey (canonicalizeFields fields))

/-- Canonicalize every item of an array. -/
def canonicalizeItems : JsonItems → JsonItems
  | .nil => .nil
  | .cons x xs => .cons (canonicalizeJson x) (canonicalizeItems xs)

/-- Canonicalize every value of an object's field list. -/
def canonicalizeFields : JsonFields → JsonFields
  | .nil => .nil
  | .cons k v rest => .cons k (canonicalizeJson v) (canonicalizeFields rest)
end

/-! ### SHA-256

Faithful embedding of the SHA-256 digest both hash functions delegate to
(`sha2::Sha256`), over byte lists, with 32-bit words as `Nat` reduced
modulo `2 ^ 32`. -/

/-- UTF-8 encoding of a character. -/
def charUtf8 (c : Char) : List Nat :=
  let n := c.toNat
  if n < 0x80 then [n]
  else if n < 0x800 then
    [0xc0 ||| (n >>> 6), 0x80 ||| (n &&& 0x3f)]
  else if n < 0x10000 then
    [0xe0 ||| (n >>> 12), 0x80 ||| ((n >>> 6) &&& 0x3f), 0x80 ||| (n &&& 0x3f)]
  else
    [0xf0 ||| (n >>> 18), 0x80 ||| ((n >>> 12) &&& 0x3f),
     0x80 ||| ((n >>> 6) &&& 0x3f), 0x80 ||| (n &&& 0x3f)]

/-- UTF-8 bytes of a string. -/
def strBytes (s : String) : List Nat :=
  (s.data.map charUtf8).flatten

/-- Truncation to a 32-bit word. -/
def m32 (x : Nat) : Nat := x % 4294967296

/-- Right rotation of a 32-bit word. -/
def rotr (n x : Nat) : Nat := m32 ((x >>> n) ||| (x <<< (32 - n)))

/-- The SHA-256 round constants (FIPS 180-4, written in decimal). -/
def shaK : List Nat :=
  [1116352408, 1899447441, 3049323471, 3921009573, 961987163, 1508970993,
   2453635748, 2870763221, 3624381080, 310598401, 607225278, 1426881987,
   1925078388, 2162078206, 2614888103, 3248222580, 3835390401, 4022224774,
   264347078, 604807628, 770255983, 1249150122, 1555081692, 1996064986,
   2554220882, 2821834349, 2952996808, 3210313671, 3336571891, 3584528711,
   113926993, 338241895, 666307205, 773529912, 1294757372, 1396182291,
   1695183700, 1986661051, 2177026350, 2456956037, 2730485921, 2820302411,
   3259730800, 3345764771, 3516065817, 3600352804, 4094571909, 275423344,
   430227734, 506948616, 659060556, 883997877, 958139571, 1322822218,
   1537002063, 1747873779, 1955562222, 2024104815, 2227730452, 2361852424,
   2428436474, 2756734187, 3204031479, 3329325298]

/-- Working state of the compression function. -/
structure Sha8 where
  a : Nat
  b : Nat
  c : Nat
  d : Nat
  e : Nat
  f : Nat
  g : Nat
  h : Nat
deriving Repr, DecidableEq

/-- Initial SHA-256 hash value. -/
def shaInit : Sha8 :=
  ⟨1779033703, 3144134277, 1013904242, 2773480762,
   1359893119, 2600822924, 528734635, 1541459225⟩

/-- Big-endian 8-byte rendering of the message bit length. -/
def lenBytes64 (n : Nat) : List Nat :=
  [(n >>> 56) &&& 255, (n >>> 48) &&& 255, (n >>> 40) &&& 255,
   (n >>> 32) &&& 255, (n >>> 24) &&& 255, (n >>> 16) &&& 255,
   (n >>> 8) &&& 255, n &&& 255]

/-- SHA-256 padding: a `0x80` byte, zeros to 56 mod 64, then the bit
length big-endian. -/
def padMessage (msg : List Nat) : List Nat :=
  let zeros := (119 - msg.length % 64) % 64
  msg ++ [0x80] ++ List.replicate zeros 0 ++ lenBytes64 (8 * msg.length)

/-- Group bytes big-endian into 32-bit words. -/
def bytesToWords : List Nat → List Nat
  | b0 :: b1 :: b2 :: b3 :: rest =>
      ((((b0 <<< 8) ||| b1) <<< 8 ||| b2) <<< 8 ||| b3) :: bytesToWords rest
  | _ => []

/-- Split a word list into 16-word blocks (fuel-driven). -/
def wordsToBlocksAux : Nat → List Nat → List (List Nat)
  | 0, _ => []
  | _, [] => []
  | fuel + 1, ws => ws.take 16 :: wordsToBlocksAux fuel (ws.drop 16)

/-- Split a word list into 16-word blocks. -/
def wordsToBlocks (ws : List Nat) : List (List Nat) :=
  wordsToBlocksAux ws.length ws

/-- One extension step of the message schedule. -/
def scheduleStep (w : List Nat) : List Nat :=
  let t := w.length
  let x15 := w.getD (t - 15) 0
  let x2 := w.getD (t - 2) 0
  let s0 := (rotr 7 x15) ^^^ (rotr 18 x15) ^^^ (x15 >>> 3)
  let s1 := (rotr 17 x2) ^^^ (rotr 19 x2) ^^^ (x2 >>> 10)
  w ++ [m32 (w.getD (t - 16) 0 + s0 + w.getD (t - 7) 0 + s1)]

/-- Extend a 16-word block to the 64-word message schedule. -/
def schedule (block : List Nat) : List Nat :=
  (List.range 48).foldl (fun w _ => scheduleStep w) block

/-- One round of the SHA-256 compression function. -/
def compressStep (st : Sha8) (kw : Nat × Nat) : Sha8 :=
  let s1 := (rotr 6 st.e) ^^^ (rotr 11 st.e) ^^^ (rotr 25 st.e)
  let ch := (st.e &&& st.f) ^^^ ((st.e ^^^ 4294967295) &&& st.g)
  let t1 := m32 (st.h + s1 + ch + kw.1 + kw.2)
  let s0 := (rotr 2 st.a) ^^^ (rotr 13 st.a) ^^^ (rotr 22 st.a)
  let mj := (st.a &&& st.b) ^^^ (st.a &&& st.c) ^^^ (st.b &&& st.c)
  let t2 := m32 (s0 + mj)
  ⟨m32 (t1 + t2), st.a, st.b, st.c, m32 (st.d + t1), st.e, st.f, st.g⟩

/-- Compress one 16-word block into the running hash value. -/
def compressBlock (hs : Sha8) (block : List Nat) : Sha8 :=
  let st := (shaK.zip (schedule block)).foldl compressStep hs
  ⟨m32 (hs.a + st.a), m32 (hs.b + st.b), m32 (hs.c + st.c), m32 (hs.d + st.d),
   m32 (hs.e + st.e), m32 (hs.f + st.f), m32 (hs.g + st.g), m32 (hs.h + st.h)⟩

/-- The eight 32-bit digest words of a byte message. -/
def sha256Words (msg : List Nat) : List Nat :=
  let fin := (wordsToBlocks (bytesToWords (padMessage msg))).foldl compressBlock shaInit
  [fin.a, fin.b, fin.c, fin.d, fin.e, fin.f, fin.g, fin.h]

/-- Lower-case hex digit. -/
def hexDigitChar (n : Nat) : Char :=
  if n < 10 then Char.ofNat (48 + n) else Char.ofNat (87 + (n % 16))

/-- Lower-case 8-digit hex rendering of a 32-bit word. -/
def word32Hex (w : Nat) : String :=
  String.mk ((List.range 8).map (fun i => hexDigitChar ((w >>> (28 - 4 * i)) &&& 15)))

/-- The hex digest `hex::encode(Sha256::digest(bytes))`. -/
def sha256Hex (msg : List Nat) : String :=
  String.join ((sha256Words msg).map word32Hex)

/-- `hash_json` from `desktop/backend/src/mcp/hash.rs`: canonicalize
(recursively key-sort), serialize compactly, SHA-256, hex.  The `Result`
in the source can only fail on serializer errors impossible for these
values, so the model is total. -/
def hash_json_desktop (v : Json) : String :=
  sha256Hex (strBytes (canonicalizeJson v).render)

/-- `hash_json` from `deeting/src-tauri/src/mcp/store.rs` (lines
1277-1282): serialize the value as stored — without canonicalization —
then SHA-256 and hex. -/
def hash_json_tauri (v : Json) : String :=
  sha256Hex (strBytes v.render)

/-! ### Catalog data model

Enumerations and records from `types.rs`.  The Tauri side's enums are
supersets of the desktop backend's (`cloud`, `pending`, `orphaned` exist
only there); one Lean type serves both, with the desktop operations never
producing the extra constructors. -/

/-- `McpSourceType` (kinds of manifest sources). -/
inductive McpSourceType where
  | local : McpSourceType
  | cloud : McpSourceType
  | modelscope : McpSourceType
  | github : McpSourceType
  | url : McpSourceType
deriving Repr, DecidableEq

/-- `McpSourceStatus` (lifecycle of a source). -/
inductive McpSourceStatus where
  | active : McpSourceStatus
  | inactive : McpSourceStatus
  | syncing : McpSourceStatus
  | error : McpSourceStatus
deriving Repr, DecidableEq

/-- `McpTrustLevel`. -/
inductive McpTrustLevel where
  | official : McpTrustLevel
  | community : McpTrustLevel
  | priv : McpTrustLevel
deriving Repr, DecidableEq

/-- `McpToolStatus` (the per-tool FSM states). -/
inductive McpToolStatus where
  | pending : McpToolStatus
  | stopped : McpToolStatus
  | starting : McpToolStatus
  | healthy : McpToolStatus
  | degraded : McpToolStatus
  | crashed : McpToolStatus
  | updating : McpToolStatus
  | error : McpToolStatus
  | orphaned : McpToolStatus
deriving Repr, DecidableEq

/-- `McpConflictStatus`. -/
inductive McpConflictStatus where
  | none : McpConflictStatus
  | update_available : McpConflictStatus
  | conflict : McpConflictStatus
deriving Repr, DecidableEq

/-- `McpLogStream` (tag of a log line). -/
inductive McpLogStream where
  | stdout : McpLogStream
  | stderr : McpLogStream
  | event : McpLogStream
deriving Repr, DecidableEq

/-- `McpLogEntry` (a line of a tool's log). -/
structure McpLogEntry where
  timestamp : String
  stream : McpLogStream
  message : String

/-- A source record (`McpSource` / row of `mcp_sources`). -/
structure McpSource where
  id : String
  name : String
  source_type : McpSourceType
  path_or_url : String
  trust_level : McpTrustLevel
  status : McpSourceStatus
  last_synced_at : Option String
  is_read_only : Bool
  created_at : String
  updated_at : String

/-- A tool record (row of `mcp_tools`).  `source_id` is a NOT NULL column,
so it is a plain `String` here (the Rust `McpTool.source_id:
Option<String>` is always populated from it).  The TEXT columns
`config_json` / `pending_config_json` hold serialized JSON; they are
modelled by the `Json` value they serialize.  `identifier` and `is_new`
exist only in the Tauri schema; desktop-side operations leave them at
`none` / `false`. -/
structure McpTool where
  id : String
  identifier : Option String
  name : String
  source_type : McpSourceType
  source_id : String
  status : McpToolStatus
  ping_ms : Option Int
  capabilities : List String
  description : String
  error : Option String
  command : Option String
  args : Option (List String)
  env : Option (List (String × String))
  config_json : Json
  pending_config_json : Option Json
  config_hash : String
  pending_config_hash : Option String
  conflict_status : McpConflictStatus
  is_read_only : Bool
  is_new : Bool
  created_at : String
  updated_at : String

/-- `ToolUpsert` — the record handed to `upsert_tool`.  The desktop
variant lacks `identifier` and `is_new`; the desktop operations below do
not read them. -/
structure ToolUpsert where
  id : Option String
  source_id : String
  identifier : Option String
  name : String
  source_type : McpSourceType
  status : McpToolStatus
  ping_ms : Option Int
  capabilities : List String
  description : String
  error : Option String
  command : Option String
  args : Option (List String)
  env : Option (List (String × String))
  config_json : Json
  config_hash : String
  pending_config_json : Option Json
  pending_config_hash : Option String
  conflict_status : McpConflictStatus
  is_read_only : Bool
  is_new : Bool

/-! ### Store operations

The `mcp_tools` table is a `List McpTool` in insertion order; an SQL
`UPDATE … WHERE id = ?` maps the matching rows, a `SELECT … LIMIT 1`
without `ORDER BY` returns the first matching row in that order, and each
write sets `updated_at` to the caller-supplied current instant `now`. -/

/-- `UPDATE mcp_tools SET … WHERE id = ?`: rewrite the rows whose id
matches. -/
def updateRow (tools : List McpTool) (id : String) (f : McpTool → McpTool) : List McpTool :=
  tools.map fun t => if t.id = id then f t else t

/-- `get_tool` (`SELECT … WHERE id = ?`). -/
def get_tool (tools : List McpTool) (id : String) : Option McpTool :=
  tools.find? fun t => t.id = id

/-- `get_tool_by_source_name` (`SELECT … WHERE source_id = ? AND name = ?
LIMIT 1`). -/
def get_tool_by_source_name (tools : List McpTool) (source_id name : String) :
    Option McpTool :=
  tools.find? fun t => t.source_id = source_id ∧ t.name = name

/-- `get_tool_by_source_identifier` (`SELECT … WHERE source_id = ? AND
identifier = ? LIMIT 1`). -/
def get_tool_by_source_identifier (tools : List McpTool) (source_id identifier : String) :
    Option McpTool :=
  tools.find? fun t => t.source_id = source_id ∧ t.identifier = some identifier

/-- `has_name_conflict` — `SELECT COUNT(*) … WHERE name = ? AND source_id
!= ? AND source_type = 'local'`, compared against zero.  Identical SQL in
both stores. -/
def has_name_conflict (tools : List McpTool) (name source_id : String) : Bool :=
  tools.any fun t => t.name = name ∧ t.source_id ≠ source_id ∧ t.source_type = .local

/-- Tauri `find_tool_id_by_source_identifier` (store.rs lines 704-739):
with an identifier, match `identifier = ?`; without, match `identifier IS
NULL` — the tool's name is not consulted in either branch. -/
def find_tool_id_by_source_identifier (tools : List McpTool) (source_id : String)
    (identifier : Option String) : Option String :=
  match identifier with
  | some i => (tools.find? fun t => t.source_id = source_id ∧ t.identifier = some i).map (·.id)
  | none => (tools.find? fun t => t.source_id = source_id ∧ t.identifier = none).map (·.id)

/-- Desktop `find_tool_id_by_source_name` (`SELECT id … WHERE source_id =
? AND name = ? LIMIT 1`). -/
def find_tool_id_by_source_name (tools : List McpTool) (source_id name : String) :
    Option String :=
  (tools.find? fun t => t.source_id = source_id ∧ t.name = name).map (·.id)

/-- `set_tool_status` — one UPDATE of `status`, `ping_ms`, `error`,
`updated_at`. -/
def set_tool_status (tools : List McpTool) (id : String) (status : McpToolStatus)
    (ping_ms : Option Int) (error : Option String) (now : String) : List McpTool :=
  updateRow tools id fun t =>
    { t with status := status, ping_ms := ping_ms, error := error, updated_at := now }

/-- `mark_tool_pending_update` — one UPDATE of the pending columns and
`conflict_status` (identical SQL in both stores). -/
def mark_tool_pending_update (tools : List McpTool) (id : String)
    (pending_config_json : Json) (pending_config_hash : String)
    (conflict_status : McpConflictStatus) (now : String) : List McpTool :=
  updateRow tools id fun t =>
    { t with pending_config_json := some pending_config_json,
             pending_config_hash := some pending_config_hash,
             conflict_status := conflict_status, updated_at := now }

/-- Tauri `clear_pending_update` — null the pending columns, reset
`conflict_status` to `none`. -/
def clear_pending_update (tools : List McpTool) (id now : String) : List McpTool :=
  updateRow tools id fun t =>
    { t with pending_config_json := none, pending_config_hash := none,
             conflict_status := .none, updated_at := now }

/-- Desktop store `apply_pending_update` (store.rs lines 393-414) — the
single UPDATE with `COALESCE`: promote pending config and hash when
present, null the pending columns, reset `conflict_status`. -/
def apply_pending_update_store (tools : List McpTool) (id now : String) : List McpTool :=
  updateRow tools id fun t =>
    { t with config_json := t.pending_config_json.getD t.config_json,
             config_hash := t.pending_config_hash.getD t.config_hash,
             pending_config_json := none, pending_config_hash := none,
             conflict_status := .none, updated_at := now }

/-- `insert_tool` — the freshly inserted row; `id` is generated when the
upsert record carries none, and `created_at = updated_at = now`. -/
def rowOfUpsert (u : ToolUpsert) (genId now : String) : McpTool :=
  { id := u.id.getD genId, identifier := u.identifier, name := u.name,
    source_type := u.source_type, source_id := u.source_id, status := u.status,
    ping_ms := u.ping_ms, capabilities := u.capabilities,
    description := u.description, error := u.error, command := u.command,
    args := u.args, env := u.env, config_json := u.config_json,
    pending_config_json := u.pending_config_json, config_hash := u.config_hash,
    pending_config_hash := u.pending_config_hash,
    conflict_status := u.conflict_status, is_read_only := u.is_read_only,
    is_new := u.is_new, created_at := now, updated_at := now }

/-- Tauri `update_tool` — full-row UPDATE by id (sets every column except
`id` and `created_at`, including `identifier` and `is_new`). -/
def tauri_update_fields (u : ToolUpsert) (now : String) (t : McpTool) : McpTool :=
  { t with source_id := u.source_id, identifier := u.identifier, name := u.name,
           source_type := u.source_type, status := u.status, ping_ms := u.ping_ms,
           capabilities := u.capabilities, description := u.description,
           error := u.error, command := u.command, args := u.args, env := u.env,
           config_json := u.config_json, config_hash := u.config_hash,
           pending_config_json := u.pending_config_json,
           pending_config_hash := u.pending_config_hash,
           conflict_status := u.conflict_status, is_read_only := u.is_read_only,
           is_new := u.is_new, updated_at := now }

/-- Desktop `update_tool` — as the Tauri one but without the `identifier`
and `is_new` columns, which its schema does not have. -/
def desktop_update_fields (u : ToolUpsert) (now : String) (t : McpTool) : McpTool :=
  { t with source_id := u.source_id, name := u.name,
           source_type := u.source_type, status := u.status, ping_ms := u.ping_ms,
           capabilities := u.capabilities, description := u.description,
           error := u.error, command := u.command, args := u.args, env := u.env,
           config_json := u.config_json, config_hash := u.config_hash,
           pending_config_json := u.pending_config_json,
           pending_config_hash := u.pending_config_hash,
           conflict_status := u.conflict_status, is_read_only := u.is_read_only,
           updated_at := now }

/-- Tauri `upsert_tool` (store.rs lines 491-512): locate by
`find_tool_id_by_source_identifier`; update that row in place when found,
else insert and re-locate the same way.  Returns the new table and the
row handed back to the caller (`none` models the NotFound errors). -/
def tauri_upsert_tool (tools : List McpTool) (u : ToolUpsert) (genId now : String) :
    List McpTool × Option McpTool :=
  match find_tool_id_by_source_identifier tools u.source_id u.identifier with
  | some existing_id =>
      let ts := updateRow tools existing_id (tauri_update_fields u now)
      (ts, get_tool ts existing_id)
  | none =>
      let ts := tools ++ [rowOfUpsert { u with identifier := u.identifier } genId now]
      match find_tool_id_by_source_identifier ts u.source_id u.identifier with
      | some created => (ts, get_tool ts created)
      | none => (ts, none)

/-- Desktop `upsert_tool` (store.rs lines 344-365): locate by
`find_tool_id_by_source_name`; update that row in place when found, else
insert and re-locate by name.  Inserted rows carry no identifier and no
`is_new` (those columns do not exist in this schema). -/
def desktop_upsert_tool (tools : List McpTool) (u : ToolUpsert) (genId now : String) :
    List McpTool × Option McpTool :=
  match find_tool_id_by_source_name tools u.source_id u.name with
  | some existing_id =>
      let ts := updateRow tools existing_id (desktop_update_fields u now)
      (ts, get_tool ts existing_id)
  | none =>
      let ts := tools ++ [rowOfUpsert { u with identifier := none, is_new := false } genId now]
      match find_tool_id_by_source_name ts u.source_id u.name with
      | some created => (ts, get_tool ts created)
      | none => (ts, none)

/-! ### Manifest payloads and canonical config construction -/

/-- `McpToolConfigPayload` — one `mcpServers` entry as deserialized by
serde: the five typed fields plus the flattened remainder (`extra`). -/
structure McpToolConfigPayload where
  command : Option String
  args : Option (List String)
  env : Option (List (String × String))
  description : Option String
  capabilities : Option (List String)
  extra : List (String × Json)

/-- Is a key present in a field list? -/
def JsonFields.hasKey : JsonFields → String → Bool
  | .nil, _ => false
  | .cons k _ tl, key => k = key || JsonFields.hasKey tl key

/-- First value stored under a key (`serde_json` maps hold each key once). -/
def JsonFields.lookupKey : JsonFields → String → Option Json
  | .nil, _ => Option.none
  | .cons k v tl, key => if k = key then some v else JsonFields.lookupKey tl key

/-- Replace the value stored under a key, keeping its position. -/
def JsonFields.setKey : JsonFields → String → Json → JsonFields
  | .nil, _, _ => .nil
  | .cons k v tl, key, nv =>
      if k = key then .cons k nv tl else .cons k v (JsonFields.setKey tl key nv)

/-- Append one field at the end. -/
def JsonFields.push : JsonFields → String → Json → JsonFields
  | .nil, k, v => .cons k v .nil
  | .cons k2 v2 tl, k, v => .cons k2 v2 (JsonFields.push tl k v)

/-- `serde_json::Map::insert`: replace in place when the key exists, else
append at the end. -/
def mapInsert (fields : JsonFields) (k : String) (v : Json) : JsonFields :=
  if fields.hasKey k then fields.setKey k v else fields.push k v

/-- String list to JSON array of strings. -/
def jsonOfStrings (l : List String) : Json := Json.mkArr (l.map Json.str)

/-- String map to JSON object of strings. -/
def jsonOfStringMap (l : List (String × String)) : Json :=
  Json.mkObj (l.map fun kv => (kv.1, Json.str kv.2))

/-- `build_config_json` (identical in both stores): insert `name`, then
the optional `command`, `args`, `env`, `description`, `capabilities`, then
every `extra` field, into a fresh map. -/
def build_config_json (name : String) (p : McpToolConfigPayload) : Json :=
  let m : JsonFields := mapInsert .nil "name" (Json.str name)
  let m := match p.command with
    | some c => mapInsert m "command" (Json.str c)
    | Option.none => m
  let m := match p.args with
    | some args => mapInsert m "args" (jsonOfStrings args)
    | Option.none => m
  let m := match p.env with
    | some env => mapInsert m "env" (jsonOfStringMap env)
    | Option.none => m
  let m := match p.description with
    | some d => mapInsert m "description" (Json.str d)
    | Option.none => m
  let m := match p.capabilities with
    | some caps => mapInsert m "capabilities" (jsonOfStrings caps)
    | Option.none => m
  let m := p.extra.foldl (fun m kv => mapInsert m kv.1 kv.2) m
  .obj m

/-- `ExtractedToolFields`. -/
structure ExtractedToolFields where
  name : String
  description : String
  command : Option String
  args : Option (List String)
  env : Option (List (String × String))
  capabilities : List String

/-- `extract_tool_fields` (identical in both stores): project the payload,
defaulting the description to "MCP tool" and the capabilities to the empty
list. -/
def extract_tool_fields (name : String) (p : McpToolConfigPayload) : ExtractedToolFields :=
  { name := name,
    description := p.description.getD "MCP tool",
    command := p.command,
    args := p.args,
    env := p.env,
    capabilities := p.capabilities.getD [] }

/-! ### serde decoding of a pending config (`from_value` into
`McpToolConfigPayload`) -/

/-- Decode an optional string field: absent or `null` gives `none`, a
string gives `some`, anything else is a deserialization error. -/
def decodeStrField (v : Option Json) : Option (Option String) :=
  match v with
  | Option.none => some Option.none
  | some .null => some Option.none
  | some (.str s) => some (some s)
  | some _ => Option.none

/-- Decode a JSON array of strings. -/
def decodeStrList : List Json → Option (List String)
  | [] => some []
  | .str s :: rest => (decodeStrList rest).map (s :: ·)
  | _ => Option.none

/-- Decode an optional list-of-strings field. -/
def decodeStrListField (v : Option Json) : Option (Option (List String)) :=
  match v with
  | Option.none => some Option.none
  | some .null => some Option.none
  | some (.arr items) => (decodeStrList items.toList).map some
  | some _ => Option.none

/-- Decode a JSON object with string values. -/
def decodeStrMap : List (String × Json) → Option (List (String × String))
  | [] => some []
  | (k, .str s) :: rest => (decodeStrMap rest).map ((k, s) :: ·)
  | _ => Option.none

/-- Decode an optional string-map field. -/
def decodeStrMapField (v : Option Json) : Option (Option (List (String × String))) :=
  match v with
  | Option.none => some Option.none
  | some .null => some Option.none
  | some (.obj fields) => (decodeStrMap fields.toList).map some
  | some _ => Option.none

/-- The keys consumed by the typed fields of `McpToolConfigPayload`; all
others land in the flattened `extra`. -/
def payloadKnownKeys : List String :=
  ["command", "args", "env", "description", "capabilities"]

/-- `serde_json::from_value::<McpToolConfigPayload>`: only objects decode;
the five typed fields must have their declared shapes and the remaining
fields are kept verbatim. -/
def payloadOfJson : Json → Option McpToolConfigPayload
  | .obj fields => do
      let command ← decodeStrField (fields.lookupKey "command")
      let args ← decodeStrListField (fields.lookupKey "args")
      let env ← decodeStrMapField (fields.lookupKey "env")
      let description ← decodeStrField (fields.lookupKey "description")
      let capabilities ← decodeStrListField (fields.lookupKey "capabilities")
      some { command := command, args := args, env := env,
             description := description, capabilities := capabilities,
             extra := fields.toList.filter (fun kv => !payloadKnownKeys.contains kv.1) }
  | _ => Option.none

/-! ### Error taxonomies

The two implementations have different error enums: the Tauri
`error.rs` has five variants including `Storage` and `Network`; the
desktop backend's `McpError` (mod.rs) has six — `Database`,
`Serialization`, `Time`, `Validation`, `NotFound`, `Process` — and no
`Storage` or `Network` variant at all. -/

/-- Tauri `McpError` (`deeting/src-tauri/src/mcp/error.rs`). -/
inductive McpErrorT where
  | validation (msg : String) : McpErrorT
  | notFound (msg : String) : McpErrorT
  | process (msg : String) : McpErrorT
  | storage (msg : String) : McpErrorT
  | network (msg : String) : McpErrorT
deriving Repr, DecidableEq

/-- Is a Tauri error the `Network` variant? -/
def McpErrorT.isNetwork : McpErrorT → Bool
  | .network _ => true
  | _ => false

/-- Is a Tauri error the `Storage` variant? -/
def McpErrorT.isStorage : McpErrorT → Bool
  | .storage _ => true
  | _ => false

/-- Desktop backend `McpError` (`desktop/backend/src/mcp/mod.rs`). -/
inductive McpErrorD where
  | database (msg : String) : McpErrorD
  | serialization (msg : String) : McpErrorD
  | time (msg : String) : McpErrorD
  | validation (msg : String) : McpErrorD
  | notFound (msg : String) : McpErrorD
  | process (msg : String) : McpErrorD
deriving Repr, DecidableEq

/-- Is a desktop error the `Process` variant? -/
def McpErrorD.isProcess : McpErrorD → Bool
  | .process _ => true
  | _ => false

/-! ### Manifest fetch (`sync_source_inner`, both implementations)

The fetch side effects (file read, HTTP round trip, body decoding) are
supplied as outcome values; `sync_source_inner` is modelled by how it
classifies them.  For the desktop backend the remote body decode and the
local file-read failure have no conversion into its error type (the enum
provides `From` only for `sqlx`, `serde_json` and `time` errors), so its
outcome types carry only the conversions the source spells out:
`map_err(McpError::Process)` on the request and on a non-2xx status, and
the `serde_json::Error → Serialization` conversion on a local parse. -/

/-- The parsed manifest: the `mcpServers` entries. -/
def ConfigEntries := List (String × McpToolConfigPayload)

/-- Outcome of reading and parsing the local manifest file (Tauri):
`read_to_string` error, parse error, or the payload. -/
inductive TLocalOutcome where
  | ioError (msg : String) : TLocalOutcome
  | parseError (msg : String) : TLocalOutcome
  | parsed (payload : ConfigEntries) : TLocalOutcome

/-- Outcome of the remote GET (Tauri): request error, or a response with
status code whose body decodes to a payload or fails. -/
inductive TRemoteOutcome where
  | sendError (msg : String) : TRemoteOutcome
  | resp (code : Nat) (body : Except String ConfigEntries) : TRemoteOutcome

/-- `reqwest::StatusCode::is_success`. -/
def isSuccessStatus (code : Nat) : Bool := 200 ≤ code && code ≤ 299

/-- Tauri `sync_source_inner`, local arm: `read_to_string` and
`from_str` failures both map to `Storage`. -/
def tauri_classify_local : TLocalOutcome → Except McpErrorT ConfigEntries
  | .ioError m => .error (.storage m)
  | .parseError m => .error (.storage m)
  | .parsed p => .ok p

/-- Tauri `sync_source_inner`, remote arm: the request error, a non-2xx
status, and a body-decode failure all map to `Network`. -/
def tauri_classify_remote : TRemoteOutcome → Except McpErrorT ConfigEntries
  | .sendError m => .error (.network m)
  | .resp code body =>
      if isSuccessStatus code then
        match body with
        | .error m => .error (.network m)
        | .ok p => .ok p
      else .error (.network ("sync failed with status " ++ toString code))

/-- Tauri `sync_source_inner` (commands.rs lines 396-433), fetch part:
the `Local` source kind reads the file, every other kind performs the
HTTP GET. -/
def tauri_fetch_payload (source : McpSource) (localOut : TLocalOutcome)
    (remoteOut : TRemoteOutcome) : Except McpErrorT ConfigEntries :=
  if source.source_type = .local then tauri_classify_local localOut
  else tauri_classify_remote remoteOut

/-- Outcome of reading and parsing the local manifest file (desktop); only
the parse step carries a classified failure (a read failure has no
conversion into the backend's error enum). -/
inductive DLocalOutcome where
  | parseError (msg : String) : DLocalOutcome
  | parsed (payload : ConfigEntries) : DLocalOutcome

/-- Outcome of the remote GET (desktop); a decoded body accompanies any
2xx status (the decode failure has no conversion into the backend's error
enum). -/
inductive DRemoteOutcome where
  | sendError (msg : String) : DRemoteOutcome
  | resp (code : Nat) (payload : ConfigEntries) : DRemoteOutcome

/-- Desktop `sync_source_inner`, local arm: the parse failure becomes
`Serialization` (the `serde_json::Error` conversion). -/
def desktop_classify_local : DLocalOutcome → Except McpErrorD ConfigEntries
  | .parseError m => .error (.serialization m)
  | .parsed p => .ok p

/-- Desktop `sync_source_inner`, remote arm: the request error and a
non-2xx status are mapped — explicitly, by `map_err` — to the `Process`
variant. -/
def desktop_classify_remote : DRemoteOutcome → Except McpErrorD ConfigEntries
  | .sendError m => .error (.process m)
  | .resp code p =>
      if isSuccessStatus code then .ok p
      else .error (.process ("sync failed with status " ++ toString code))

/-- Desktop `sync_source_inner` (routes.rs lines 234-266), fetch part:
the `Local` source kind reads the file, every other kind performs the
HTTP GET. -/
def desktop_fetch_payload (source : McpSource) (localOut : DLocalOutcome)
    (remoteOut : DRemoteOutcome) : Except McpErrorD ConfigEntries :=
  if source.source_type = .local then desktop_classify_local localOut
  else desktop_classify_remote remoteOut

/-! ### Reconciling one manifest entry (`apply_config_payload`)

Both implementations run the same per-entry classification; they differ
only in the hash function (`compute_config_hash` delegates to the
respective `hash_json`) and in the upsert used on the writable path. -/

/-- Tauri `apply_config_payload` (commands.rs lines 435-548), one
iteration of the `mcp_servers` loop: build the canonical config, hash it
with the Tauri `hash_json`, classify against the stored row found by
`(source_id, name)`, and issue a no-op / mark-pending / in-place upsert /
insert. -/
def apply_config_entry_tauri (tools : List McpTool) (source : McpSource)
    (name : String) (p : McpToolConfigPayload) (genId now : String) :
    List McpTool × Option McpTool :=
  let config_value := build_config_json name p
  let config_hash := hash_json_tauri config_value
  let extracted := extract_tool_fields name p
  let name_conflict := has_name_conflict tools name source.id
  let is_read_only := decide (source.source_type ≠ .local) || source.is_read_only
  match get_tool_by_source_name tools source.id name with
  | some existing_tool =>
      if existing_tool.config_hash = config_hash then
        (tools, some existing_tool)
      else if is_read_only then
        let conflict_status : McpConflictStatus :=
          if name_conflict then .conflict else .update_available
        let ts := mark_tool_pending_update tools existing_tool.id config_value
          config_hash conflict_status now
        (ts, get_tool ts existing_tool.id)
      else
        tauri_upsert_tool tools
          { id := some existing_tool.id, source_id := source.id,
            identifier := existing_tool.identifier, name := extracted.name,
            source_type := source.source_type, status := existing_tool.status,
            ping_ms := existing_tool.ping_ms, capabilities := extracted.capabilities,
            description := extracted.description, error := existing_tool.error,
            command := extracted.command, args := extracted.args,
            env := extracted.env, config_json := config_value,
            config_hash := config_hash, pending_config_json := Option.none,
            pending_config_hash := Option.none,
            conflict_status := if name_conflict then .conflict else .none,
            is_read_only := is_read_only, is_new := false } genId now
  | Option.none =>
      tauri_upsert_tool tools
        { id := Option.none, source_id := source.id, identifier := Option.none,
          name := extracted.name, source_type := source.source_type,
          status := .stopped, ping_ms := Option.none,
          capabilities := extracted.capabilities,
          description := extracted.description, error := Option.none,
          command := extracted.command, args := extracted.args,
          env := extracted.env, config_json := config_value,
          config_hash := config_hash, pending_config_json := Option.none,
          pending_config_hash := Option.none,
          conflict_status := if name_conflict then .conflict else .none,
          is_read_only := is_read_only, is_new := false } genId now

/-- Desktop `apply_config_payload` (routes.rs lines 268-378), one
iteration: identical classification, with the canonical desktop
`hash_json` and the by-name upsert. -/
def apply_config_entry_desktop (tools : List McpTool) (source : McpSource)
    (name : String) (p : McpToolConfigPayload) (genId now : String) :
    List McpTool × Option McpTool :=
  let config_value := build_config_json name p
  let config_hash := hash_json_desktop config_value
  let extracted := extract_tool_fields name p
  let name_conflict := has_name_conflict tools name source.id
  let is_read_only := decide (source.source_type ≠ .local) || source.is_read_only
  match get_tool_by_source_name tools source.id name with
  | some existing_tool =>
      if existing_tool.config_hash = config_hash then
        (tools, some existing_tool)
      else if is_read_only then
        let conflict_status : McpConflictStatus :=
          if name_conflict then .conflict else .update_available
        let ts := mark_tool_pending_update tools existing_tool.id config_value
          config_hash conflict_status now
        (ts, get_tool ts existing_tool.id)
      else
        desktop_upsert_tool tools
          { id := some existing_tool.id, source_id := source.id,
            identifier := Option.none, name := extracted.name,
            source_type := source.source_type, status := existing_tool.status,
            ping_ms := existing_tool.ping_ms, capabilities := extracted.capabilities,
            description := extracted.description, error := existing_tool.error,
            command := extracted.command, args := extracted.args,
            env := extracted.env, config_json := config_value,
            config_hash := config_hash, pending_config_json := Option.none,
            pending_config_hash := Option.none,
            conflict_status := if name_conflict then .conflict else .none,
            is_read_only := is_read_only, is_new := false } genId now
  | Option.none =>
      desktop_upsert_tool tools
        { id := Option.none, source_id := source.id, identifier := Option.none,
          name := extracted.name, source_type := source.source_type,
          status := .stopped, ping_ms := Option.none,
          capabilities := extracted.capabilities,
          description := extracted.description, error := Option.none,
          command := extracted.command, args := extracted.args,
          env := extracted.env, config_json := config_value,
          config_hash := config_hash, pending_config_json := Option.none,
          pending_config_hash := Option.none,
          conflict_status := if name_conflict then .conflict else .none,
          is_read_only := is_read_only, is_new := false } genId now

/-! ### Applying a pending update (command layer) -/

/-- Desktop `apply_pending_update` route (routes.rs lines 148-207), after
its `apply_pending` validation: re-parse the pending config, re-extract
the tool fields, recompute the hash with the desktop `hash_json`, and
run the full by-name upsert with the pending columns nulled and
`conflict_status = none`. -/
def apply_pending_route_desktop (tools : List McpTool) (tool_id genId now : String) :
    List McpTool × Except McpErrorD McpTool :=
  match get_tool tools tool_id with
  | Option.none => (tools, .error (.notFound ("tool " ++ tool_id ++ " not found")))
  | some tool =>
      match tool.pending_config_json with
      | Option.none => (tools, .error (.validation "no pending config"))
      | some pending_value =>
          match payloadOfJson pending_value with
          | Option.none =>
              (tools, .error (.serialization "invalid pending config payload"))
          | some pending_payload =>
              let extracted := extract_tool_fields tool.name pending_payload
              let config_hash := hash_json_desktop pending_value
              let (ts, r) := desktop_upsert_tool tools
                { id := some tool.id, source_id := tool.source_id,
                  identifier := Option.none, name := extracted.name,
                  source_type := tool.source_type, status := tool.status,
                  ping_ms := tool.ping_ms, capabilities := extracted.capabilities,
                  description := extracted.description, error := tool.error,
                  command := extracted.command, args := extracted.args,
                  env := extracted.env, config_json := pending_value,
                  config_hash := config_hash, pending_config_json := Option.none,
                  pending_config_hash := Option.none, conflict_status := .none,
                  is_read_only := tool.is_read_only, is_new := false } genId now
              match r with
              | some updated => (ts, .ok updated)
              | Option.none => (ts, .error (.notFound "tool missing after update"))

/-- Tauri `apply_pending_update` helper (commands.rs lines 550-604): the
same re-parse and full upsert, with the Tauri `hash_json` and the
by-identifier upsert (the tool's own identifier is carried over). -/
def apply_pending_command_tauri (tools : List McpTool) (tool_id genId now : String) :
    List McpTool × Except McpErrorT McpTool :=
  match get_tool tools tool_id with
  | Option.none => (tools, .error (.notFound ("tool " ++ tool_id ++ " not found")))
  | some tool =>
      match tool.pending_config_json with
      | Option.none => (tools, .error (.validation "no pending config"))
      | some pending_value =>
          match payloadOfJson pending_value with
          | Option.none =>
              (tools, .error (.storage "invalid pending config payload"))
          | some pending_payload =>
              let extracted := extract_tool_fields tool.name pending_payload
              let config_hash := hash_json_tauri pending_value
              let (ts, r) := tauri_upsert_tool tools
                { id := some tool.id, source_id := tool.source_id,
                  identifier := tool.identifier, name := extracted.name,
                  source_type := tool.source_type, status := tool.status,
                  ping_ms := tool.ping_ms, capabilities := extracted.capabilities,
                  description := extracted.description, error := tool.error,
                  command := extracted.command, args := extracted.args,
                  env := extracted.env, config_json := pending_value,
                  config_hash := config_hash, pending_config_json := Option.none,
                  pending_config_hash := Option.none, conflict_status := .none,
                  is_read_only := tool.is_read_only, is_new := false } genId now
              match r with
              | some updated => (ts, .ok updated)
              | Option.none => (ts, .error (.notFound "tool missing after update"))

/-! ### Required-environment gating (`missing_required_env`, Tauri
commands.rs lines 644-661) -/

/-- An `env_config` entry's `key`, read as a string with the source's
`unwrap_or("")` default. -/
def envConfigKey : Json → String
  | .obj fields =>
      match fields.lookupKey "key" with
      | some (.str s) => s
      | _ => ""
  | _ => ""

/-- An `env_config` entry's `required` flag, read as a bool with the
source's `unwrap_or(false)` default. -/
def envConfigRequired : Json → Bool
  | .obj fields =>
      match fields.lookupKey "required" with
      | some (.bool b) => b
      | _ => false
  | _ => false

/-- The source's `present` test: the env mapping holds a non-empty value
for the key. -/
def envHasValue (env : Option (List (String × String))) (k : String) : Bool :=
  match env with
  | some env =>
      match env.lookup k with
      | some v => v != ""
      | Option.none => false
  | Option.none => false

/-- One pass over the `env_config` array: skip entries not required or
with an empty key; a kept key is missing unless the tool's env maps it to
a non-empty value. -/
def missingEnvKeys (env : Option (List (String × String))) : List Json → List String
  | [] => []
  | item :: rest =>
      let key := envConfigKey item
      let required := envConfigRequired item
      if !required || key = "" then missingEnvKeys env rest
      else if envHasValue env key then missingEnvKeys env rest
      else key :: missingEnvKeys env rest

/-- `missing_required_env`: parse the stored config (always a value in
this model), read its `env_config` array if any — absence or a non-array
yields the `unwrap_or_default` empty list — and collect the missing
required keys. -/
def missing_required_env (tool : McpTool) : List String :=
  match tool.config_json with
  | .obj fields =>
      match fields.lookupKey "env_config" with
      | some (.arr items) => missingEnvKeys tool.env items.toList
      | _ => []
  | _ => []

/-! ### Process supervisor

`ProcessManager` state: the tools table, the process map (as the list of
tool ids holding a live handle), the per-tool log rings, and the entries
handed outward (Tauri `app.emit_all` / desktop broadcast).  Locks,
readers and the actual child are outside the model; the spawn result is
an input. -/

/-- A supervisor state snapshot. -/
structure ProcState where
  tools : List McpTool
  processes : List String
  logs : List (String × List McpLogEntry)
  emitted : List (String × McpLogEntry)

/-- The ring buffer capacity (`DEFAULT_LOG_BUFFER_SIZE`). -/
def logBufferSize : Nat := 1000

/-- `LogBuffer::push`: evict the oldest entry at capacity, then append. -/
def ringPush (buf : List McpLogEntry) (e : McpLogEntry) : List McpLogEntry :=
  (if logBufferSize ≤ buf.length then buf.drop 1 else buf) ++ [e]

/-- Association lookup for the per-tool ring map. -/
def assocGet : List (String × List McpLogEntry) → String → Option (List McpLogEntry)
  | [], _ => Option.none
  | (k, v) :: rest, key => if k = key then some v else assocGet rest key

/-- A tool's ring (empty when none has been created). -/
def logsGet (logs : List (String × List McpLogEntry)) (tool_id : String) :
    List McpLogEntry :=
  (assocGet logs tool_id).getD []

/-- Store a tool's ring back (replace or create the map entry). -/
def logsSet (logs : List (String × List McpLogEntry)) (tool_id : String)
    (buf : List McpLogEntry) : List (String × List McpLogEntry) :=
  if (assocGet logs tool_id).isSome then
    logs.map fun kv => if kv.1 = tool_id then (tool_id, buf) else kv
  else logs ++ [(tool_id, buf)]

/-- `emit_log`: build the entry with the current timestamp, push it into
the tool's ring (created on demand), and hand it outward under the event
name `mcp-log://<tool_id>`. -/
def emit_log (st : ProcState) (tool_id : String) (stream : McpLogStream)
    (message now : String) : ProcState :=
  let entry : McpLogEntry := { timestamp := now, stream := stream, message := message }
  { st with
      logs := logsSet st.logs tool_id (ringPush (logsGet st.logs tool_id) entry),
      emitted := st.emitted ++ [("mcp-log://" ++ tool_id, entry)] }

/-- The failures of `ProcessManager::start_tool`, with the error variants
each maps to (`Process`, `Validation`, `Process`). -/
inductive PmFailure where
  | alreadyRunning (tool_id : String) : PmFailure
  | missingCommand : PmFailure
  | spawnFailed (msg : String) : PmFailure
deriving Repr, DecidableEq

/-- `ProcessManager::start_tool` (identical logic in both
implementations): refuse a second live handle; require a command; set
status `starting`; spawn (outcome supplied); on success record the
handle, ensure the ring, set status `healthy` and emit the
"process started" event.  Performs no required-env inspection. -/
def pm_start_tool (st : ProcState) (tool : McpTool) (spawnOk : Bool)
    (spawnErr now : String) : ProcState × Except PmFailure Unit :=
  if st.processes.contains tool.id then
    (st, .error (.alreadyRunning tool.id))
  else
    match tool.command with
    | Option.none => (st, .error .missingCommand)
    | some _ =>
        let st := { st with
          tools := set_tool_status st.tools tool.id .starting Option.none Option.none now }
        if !spawnOk then (st, .error (.spawnFailed spawnErr))
        else
          let st := { st with processes := st.processes ++ [tool.id] }
          let st := { st with logs :=
            if (assocGet st.logs tool.id).isSome then st.logs
            else st.logs ++ [(tool.id, [])] }
          let st := { st with
            tools := set_tool_status st.tools tool.id .healthy Option.none Option.none now }
          let st := emit_log st tool.id .event "process started" now
          (st, .ok ())

/-- `ProcessManager::stop_tool` (identical in both implementations): with
no live handle just set status `stopped`; otherwise kill (outcome
supplied), and on success set status `stopped` — `error` nulled — and
emit the "process stopped" event.  The handle itself is left for the
monitor. -/
def pm_stop_tool (st : ProcState) (tool_id : String) (killOk : Bool) (now : String) :
    ProcState × Except PmFailure Unit :=
  if !st.processes.contains tool_id then
    ({ st with tools := set_tool_status st.tools tool_id .stopped Option.none Option.none now },
     .ok ())
  else if !killOk then (st, .error (.spawnFailed "failed to stop tool"))
  else
    let st := { st with
      tools := set_tool_status st.tools tool_id .stopped Option.none Option.none now }
    (emit_log st tool_id .event "process stopped" now, .ok ())

/-- The exit monitor's observation step (`spawn_monitor`, both
implementations): on a reaped child with `status.code() = code`
(`None` for a signal, unwrapped to -1), emit the event line
"process exited with code N", set status `stopped` when N = 0 and
`crashed` otherwise — storing the event message as the error in both
cases — and remove the process handle. -/
def monitor_observe (st : ProcState) (tool_id : String) (code : Option Int)
    (now : String) : ProcState :=
  let exit_code : Int := code.getD (-1)
  let message := "process exited with code " ++ toString exit_code
  let st := emit_log st tool_id .event message now
  let status : McpToolStatus := if exit_code = 0 then .stopped else .crashed
  let st := { st with
    tools := set_tool_status st.tools tool_id status Option.none (some message) now }
  { st with processes := st.processes.erase tool_id }

/-- Render a Tauri error as its `Display` string (the `to_string` used by
the command layer). -/
def McpErrorT.display : McpErrorT → String
  | .validation m => "validation error: " ++ m
  | .notFound m => "not found: " ++ m
  | .process m => "process error: " ++ m
  | .storage m => "storage error: " ++ m
  | .network m => "network error: " ++ m

/-- The Tauri error a `PmFailure` is reported as. -/
def PmFailure.toTauri : PmFailure → McpErrorT
  | .alreadyRunning tool_id => .process ("tool " ++ tool_id ++ " already running")
  | .missingCommand => .validation "missing command"
  | .spawnFailed msg => .process msg

/-- The desktop error a `PmFailure` is reported as. -/
def PmFailure.toDesktop : PmFailure → McpErrorD
  | .alreadyRunning tool_id => .process ("tool " ++ tool_id ++ " already running")
  | .missingCommand => .validation "missing command"
  | .spawnFailed msg => .process msg

/-- Tauri `start_mcp_tool` (commands.rs lines 150-191): load the tool;
when `missing_required_env` is non-empty, set the tool to `pending` with
the message "missing required env: k1, k2, …", emit that message as a
synthetic `event` entry on `mcp-log://<tool_id>` (via `app.emit_all`,
not through the ring), and fail with the string "missing required env";
otherwise delegate to the process manager and re-read the tool. -/
def start_mcp_tool_tauri (st : ProcState) (tool_id : String) (spawnOk : Bool)
    (spawnErr now : String) : ProcState × Except String McpTool :=
  match get_tool st.tools tool_id with
  | Option.none =>
      (st, .error (McpErrorT.notFound ("tool " ++ tool_id ++ " not found")).display)
  | some tool =>
      let missing := missing_required_env tool
      if !missing.isEmpty then
        let message := "missing required env: " ++ String.intercalate ", " missing
        let st := { st with
          tools := set_tool_status st.tools tool_id .pending Option.none (some message) now }
        let st := { st with
          emitted := st.emitted ++
            [("mcp-log://" ++ tool_id,
              { timestamp := now, stream := .event, message := message })] }
        (st, .error "missing required env")
      else
        match pm_start_tool st tool spawnOk spawnErr now with
        | (st2, .error e) => (st2, .error e.toTauri.display)
        | (st2, .ok _) =>
            match get_tool st2.tools tool_id with
            | some updated => (st2, .ok updated)
            | Option.none =>
                (st2, .error (McpErrorT.notFound ("tool " ++ tool_id ++ " not found")).display)

/-- Desktop `start_tool` route (routes.rs lines 117-133): load the tool,
delegate straight to the process manager, and re-read the tool.  No
required-env inspection happens anywhere on this path. -/
def start_tool_desktop (st : ProcState) (tool_id : String) (spawnOk : Bool)
    (spawnErr now : String) : ProcState × Except McpErrorD McpTool :=
  match get_tool st.tools tool_id with
  | Option.none => (st, .error (.notFound ("tool " ++ tool_id ++ " not found")))
  | some tool =>
      match pm_start_tool st tool spawnOk spawnErr now with
      | (st2, .error e) => (st2, .error e.toDesktop)
      | (st2, .ok _) =>
          match get_tool st2.tools tool_id with
          | some updated => (st2, .ok updated)
          | Option.none => (st2, .error (.notFound ("tool " ++ tool_id ++ " not found")))

/-! ### Helper lemmas -/

/-- `find?` commutes with a row transformation that does not change the
predicate. -/
theorem find?_map_of_pred_inv {α : Type} (g : α → α) (p : α → Bool)
    (hp : ∀ a, p (g a) = p a) (l : List α) :
    (l.map g).find? p = (l.find? p).map g := by
  induction l with
  | nil => rfl
  | cons a l ih =>
    cases hpa : p a with
    | true => simp [List.find?_cons, hp, hpa]
    | false => simp [List.find?_cons, hp, hpa, ih]

/-- Reading the updated row back: an id-preserving update is observed
through `get_tool` on the same id. -/
theorem get_tool_updateRow (tools : List McpTool) (id : String) (f : McpTool → McpTool)
    (hf : ∀ t, (f t).id = t.id) :
    get_tool (updateRow tools id f) id
      = (get_tool tools id).map fun t => if t.id = id then f t else t := by
  unfold get_tool updateRow
  exact find?_map_of_pred_inv _ _
    (fun t => by by_cases h : t.id = id <;> simp [h, hf]) tools

/-- Reading the updated row back, resolved form. -/
theorem get_tool_updateRow_some {tools : List McpTool} {id : String}
    {f : McpTool → McpTool} {t0 : McpTool} (hf : ∀ t, (f t).id = t.id)
    (h : get_tool tools id = some t0) :
    get_tool (updateRow tools id f) id = some (f t0) := by
  have hid : t0.id = id := by
    have := List.find?_some h
    exact of_decide_eq_true this
  rw [get_tool_updateRow tools id f hf, h]
  simp [hid]

/-- An update that preserves id, source id and name is invisible to the
by-name locator. -/
theorem find_tool_id_by_source_name_updateRow (tools : List McpTool) (id : String)
    (f : McpTool → McpTool) (sid nm : String) (hid : ∀ t, (f t).id = t.id)
    (hsrc : ∀ t, (f t).source_id = t.source_id) (hnm : ∀ t, (f t).name = t.name) :
    find_tool_id_by_source_name (updateRow tools id f) sid nm
      = find_tool_id_by_source_name tools sid nm := by
  unfold find_tool_id_by_source_name updateRow
  rw [find?_map_of_pred_inv _ _
    (fun t => by by_cases h : t.id = id <;> simp [h, hsrc, hnm]) tools]
  cases h : tools.find? fun t => decide (t.source_id = sid ∧ t.name = nm) with
  | none => rfl
  | some t => by_cases h2 : t.id = id <;> simp [h2, hid]

/-- `find?` then id-projection commutes with an id-preserving,
predicate-invariant row transformation. -/
theorem find?_id_map_of_pred_inv (g : McpTool → McpTool)
    (hidg : ∀ t, (g t).id = t.id) (p : McpTool → Bool) (hp : ∀ t, p (g t) = p t)
    (l : List McpTool) :
    ((l.map g).find? p).map (·.id) = (l.find? p).map (·.id) := by
  rw [find?_map_of_pred_inv g p hp l]
  cases l.find? p <;> simp [hidg]

/-- An update that preserves id, source id and identifier is invisible to
the by-identifier locator. -/
theorem find_tool_id_by_source_identifier_updateRow (tools : List McpTool) (id : String)
    (f : McpTool → McpTool) (sid : String) (ident : Option String)
    (hid : ∀ t, (f t).id = t.id) (hsrc : ∀ t, (f t).source_id = t.source_id)
    (hident : ∀ t, (f t).identifier = t.identifier) :
    find_tool_id_by_source_identifier (updateRow tools id f) sid ident
      = find_tool_id_by_source_identifier tools sid ident := by
  cases ident with
  | some i =>
      show ((tools.map fun t => if t.id = id then f t else t).find?
          (fun t => decide (t.source_id = sid ∧ t.identifier = some i))).map (·.id)
        = (tools.find? (fun t => decide (t.source_id = sid ∧ t.identifier = some i))).map (·.id)
      exact find?_id_map_of_pred_inv _
        (fun t => by by_cases h : t.id = id <;> simp [h, hid]) _
        (fun t => by by_cases h : t.id = id <;> simp [h, hsrc, hident]) tools
  | none =>
      show ((tools.map fun t => if t.id = id then f t else t).find?
          (fun t => decide (t.source_id = sid ∧ t.identifier = Option.none))).map (·.id)
        = (tools.find? (fun t => decide (t.source_id = sid ∧ t.identifier = Option.none))).map (·.id)
      exact find?_id_map_of_pred_inv _
        (fun t => by by_cases h : t.id = id <;> simp [h, hid]) _
        (fun t => by by_cases h : t.id = id <;> simp [h, hsrc, hident]) tools

/-- With pairwise distinct row ids (the PRIMARY KEY invariant), `get_tool`
at a member's id returns that member. -/
theorem get_tool_of_mem_nodup {tools : List McpTool} {t : McpTool}
    (hmem : t ∈ tools) (hnd : (tools.map McpTool.id).Nodup) :
    get_tool tools t.id = some t := by
  induction tools with
  | nil => cases hmem
  | cons u ts ih =>
    rw [List.map_cons, List.nodup_cons] at hnd
    by_cases h : u.id = t.id
    · rcases List.mem_cons.mp hmem with rfl | hmem2
      · simp [get_tool, List.find?_cons, h]
      · exact absurd (h ▸ List.mem_map_of_mem McpTool.id hmem2) hnd.1
    · rcases List.mem_cons.mp hmem with rfl | hmem2
      · exact absurd rfl h
      · have := ih hmem2 hnd.2
        simpa [get_tool, List.find?_cons, h] using this

/-- The row found by the by-name query is the row `get_tool` finds at its
id, under the PRIMARY KEY invariant. -/
theorem get_tool_of_by_source_name {tools : List McpTool} {sid nm : String}
    {t : McpTool} (h : get_tool_by_source_name tools sid nm = some t)
    (hnd : (tools.map McpTool.id).Nodup) : get_tool tools t.id = some t :=
  get_tool_of_mem_nodup (List.mem_of_find?_eq_some h) hnd

/-- A `get_tool` hit is a row carrying the queried id. -/
theorem get_tool_id_eq {tools : List McpTool} {id : String} {t : McpTool}
    (h : get_tool tools id = some t) : t.id = id := by
  unfold get_tool at h
  have h2 := List.find?_some (p := fun (u : McpTool) => decide (u.id = id)) h
  exact of_decide_eq_true h2

/-- A ring push leaves the pushed entry at the newest end. -/
theorem ringPush_getLast? (buf : List McpLogEntry) (e : McpLogEntry) :
    (ringPush buf e).getLast? = some e := by
  unfold ringPush; split <;> rw [List.getLast?_concat]

/-- Replacing under a present key is observed by `assocGet`. -/
theorem assocGet_replace (tool_id : String) (buf : List McpLogEntry) :
    ∀ logs : List (String × List McpLogEntry), (assocGet logs tool_id).isSome = true →
    assocGet (logs.map fun kv => if kv.1 = tool_id then (tool_id, buf) else kv) tool_id
      = some buf := by
  intro logs
  induction logs with
  | nil => intro h; simp [assocGet] at h
  | cons kv logs ih =>
    obtain ⟨k, v⟩ := kv
    intro h
    by_cases hk : k = tool_id
    · subst hk
      rw [List.map_cons]
      rw [show (if (k, v).1 = k then (k, buf) else (k, v)) = (k, buf) from if_pos rfl]
      simp [assocGet]
    · rw [List.map_cons]
      rw [show (if (k, v).1 = tool_id then (tool_id, buf) else (k, v)) = (k, v) from if_neg hk]
      rw [show assocGet ((k, v) :: logs) tool_id = assocGet logs tool_id from by
        simp [assocGet, hk]] at h
      simpa [assocGet, hk] using ih h

/-- Appending a missing key is observed by `assocGet`. -/
theorem assocGet_append (tool_id : String) (buf : List McpLogEntry) :
    ∀ logs : List (String × List McpLogEntry), (assocGet logs tool_id).isSome = false →
    assocGet (logs ++ [(tool_id, buf)]) tool_id = some buf := by
  intro logs
  induction logs with
  | nil => intro _; simp [assocGet]
  | cons kv logs ih =>
    obtain ⟨k, v⟩ := kv
    intro h
    by_cases hk : k = tool_id
    · rw [show assocGet ((k, v) :: logs) tool_id = some v from by simp [assocGet, hk]] at h
      simp at h
    · rw [show assocGet ((k, v) :: logs) tool_id = assocGet logs tool_id from by
        simp [assocGet, hk]] at h
      simpa [assocGet, hk] using ih h

/-- Looking up the ring just stored for a tool returns it. -/
theorem logsGet_logsSet (logs : List (String × List McpLogEntry))
    (tool_id : String) (buf : List McpLogEntry) :
    logsGet (logsSet logs tool_id buf) tool_id = buf := by
  unfold logsGet logsSet
  by_cases h : (assocGet logs tool_id).isSome
  · rw [if_pos h, assocGet_replace tool_id buf logs h]; rfl
  · rw [if_neg h, assocGet_append tool_id buf logs (by simpa using h)]; rfl

/-! ### Concrete fixtures used by witnesses and counterexamples -/

/-- A small canonical config: name "alpha", command "echo". -/
def fixConfig : Json := Json.mkObj [("name", Json.str "alpha"), ("command", Json.str "echo")]

/-- A stored local tool "alpha" in source "s-1" with a NULL identifier. -/
def fixTool : McpTool :=
  { id := "t-1", identifier := Option.none, name := "alpha", source_type := .local,
    source_id := "s-1", status := .stopped, ping_ms := Option.none, capabilities := [],
    description := "MCP tool", error := Option.none, command := some "echo",
    args := some ["hi"], env := Option.none, config_json := fixConfig,
    pending_config_json := Option.none, config_hash := hash_json_desktop fixConfig,
    pending_config_hash := Option.none, conflict_status := .none, is_read_only := false,
    is_new := false, created_at := "2024-01-01T00:00:00Z",
    updated_at := "2024-01-01T00:00:00Z" }

/-- The auto-provisioned local source. -/
def fixLocalSource : McpSource :=
  { id := "s-1", name := "Local Config", source_type := .local,
    path_or_url := "~/.config/deeting/mcp.json", trust_level := .priv,
    status := .active, last_synced_at := Option.none, is_read_only := false,
    created_at := "2024-01-01T00:00:00Z", updated_at := "2024-01-01T00:00:00Z" }

/-- A payload whose canonical config is `fixConfig`. -/
def fixPayload : McpToolConfigPayload :=
  { command := some "echo", args := Option.none, env := Option.none,
    description := Option.none, capabilities := Option.none, extra := [] }

/-! ### C1 -/

set_option maxRecDepth 10000 in
/-- C1: the claim says both JSON hash implementations return the same
64-character hex digest for any two key-reorderings of a value.  Evaluated
at the failing input — the object with fields (b ↦ 1, a ↦ 2) against its
reordering (a ↦ 2, b ↦ 1) — the desktop `hash_json` (which canonicalizes)
agrees across the reorder and yields 64 hex characters, but the Tauri
`hash_json` (which serializes the stored order) yields two different
digests, contradicting the claim on the Tauri implementation. -/
theorem c1_hash_reorder_evaluation :
    hash_json_desktop (Json.mkObj [("b", Json.num 1), ("a", Json.num 2)])
      = hash_json_desktop (Json.mkObj [("a", Json.num 2), ("b", Json.num 1)])
    ∧ (hash_json_desktop (Json.mkObj [("b", Json.num 1), ("a", Json.num 2)])).length = 64
    ∧ (hash_json_tauri (Json.mkObj [("b", Json.num 1), ("a", Json.num 2)])).length = 64
    ∧ hash_json_tauri (Json.mkObj [("b", Json.num 1), ("a", Json.num 2)])
      ≠ hash_json_tauri (Json.mkObj [("a", Json.num 2), ("b", Json.num 1)]) :=
  ⟨by rfl, by rfl, by rfl, by decide⟩

/-! ### C2 -/

/-- An upsert record for a tool named "beta" with no identifier, aimed at
source "s-1". -/
def c2Upsert : ToolUpsert :=
  { id := Option.none, source_id := "s-1", identifier := Option.none, name := "beta",
    source_type := .local, status := .stopped, ping_ms := Option.none,
    capabilities := [], description := "MCP tool", error := Option.none,
    command := some "echo", args := Option.none, env := Option.none,
    config_json := Json.mkObj [("name", Json.str "beta"), ("command", Json.str "echo")],
    config_hash := hash_json_tauri
      (Json.mkObj [("name", Json.str "beta"), ("command", Json.str "echo")]),
    pending_config_json := Option.none, pending_config_hash := Option.none,
    conflict_status := .none, is_read_only := false, is_new := false }

/-- C2: the claim says an upsert whose identifier is absent locates the
row by `(source_id, name)` and never overwrites a same-source tool whose
name differs.  Evaluated at the failing input — a store holding only the
tool "alpha" (id "t-1", identifier NULL) of source "s-1", upserting a
record named "beta" with identifier None — the Tauri `upsert_tool`
locates by `identifier IS NULL` alone and rewrites the "alpha" row in
place (one row remains, id "t-1", now named "beta"), while the desktop
`upsert_tool` locates by name and inserts a second row as the claim
describes. -/
theorem c2_upsert_identifier_null_evaluation :
    ((tauri_upsert_tool [fixTool] c2Upsert "gen-1" "2024-01-02T00:00:00Z").1.map
        fun t => (t.id, t.name)) = [("t-1", "beta")]
    ∧ ((desktop_upsert_tool [fixTool] c2Upsert "gen-1" "2024-01-02T00:00:00Z").1.map
        fun t => (t.id, t.name)) = [("t-1", "alpha"), ("gen-1", "beta")] :=
  ⟨rfl, rfl⟩

/-! ### C9 -/

/-- C9: `has_name_conflict n s` is true exactly when some stored tool is
named `n`, belongs to a local-kind source, and that source differs from
`s`; tools of non-local sources never witness a conflict. -/
theorem c9_has_name_conflict_iff (tools : List McpTool) (n s : String) :
    has_name_conflict tools n s = true
      ↔ ∃ t, t ∈ tools ∧ t.name = n ∧ t.source_type = .local ∧ t.source_id ≠ s := by
  unfold has_name_conflict
  rw [List.any_eq_true]
  constructor
  · rintro ⟨t, ht, hp⟩
    have hp2 := of_decide_eq_true hp
    exact ⟨t, ht, hp2.1, hp2.2.2, hp2.2.1⟩
  · rintro ⟨t, ht, h1, h2, h3⟩
    exact ⟨t, ht, decide_eq_true ⟨h1, h3, h2⟩⟩

/-- Witness for C9: the store holding the local tool "alpha" of source
"s-1" reports a conflict for name "alpha" against the other source
"s-2". -/
theorem c9_has_name_conflict_iff_witness :
    has_name_conflict [fixTool] "alpha" "s-2" = true :=
  (c9_has_name_conflict_iff [fixTool] "alpha" "s-2").mpr
    ⟨fixTool, by simp, rfl, rfl, by decide⟩

/-! ### C7 -/

/-- C7: when the exit monitor observes a child's termination with exit
code N (a signal-killed child unwrapping to -1), it appends the event log
line "process exited with code N" to the tool's ring, sets the tool's
status to `stopped` exactly when N = 0 and `crashed` otherwise, writes
the (non-empty) event message into the tool's error field, and removes
the tool's process handle. -/
theorem c7_monitor_exit_classification (st : ProcState) (tool_id : String)
    (code : Option Int) (now : String) (hnd : st.processes.Nodup) :
    (logsGet (monitor_observe st tool_id code now).logs tool_id).getLast?
        = some { timestamp := now, stream := .event,
                 message := "process exited with code " ++ toString (code.getD (-1)) }
    ∧ (∀ t0, get_tool st.tools tool_id = some t0 →
        get_tool (monitor_observe st tool_id code now).tools tool_id
          = some { t0 with
              status := if code.getD (-1) = 0 then .stopped else .crashed,
              ping_ms := Option.none,
              error := some ("process exited with code " ++ toString (code.getD (-1))),
              updated_at := now })
    ∧ ("process exited with code " ++ toString (code.getD (-1))) ≠ ""
    ∧ tool_id ∉ (monitor_observe st tool_id code now).processes := by
  refine ⟨?_, ?_, ?_, ?_⟩
  · show (logsGet (logsSet st.logs tool_id
      (ringPush (logsGet st.logs tool_id) _)) tool_id).getLast? = _
    rw [logsGet_logsSet, ringPush_getLast?]
  · intro t0 h
    exact get_tool_updateRow_some (fun t => rfl) h
  · intro h
    have := congrArg String.length h
    simp [String.length_append] at this
    exact absurd this.1 (by decide)
  · intro hmem
    have hne := ((List.Nodup.mem_erase_iff hnd).mp hmem).1
    exact hne rfl

/-- A supervisor fixture: the tool "alpha" stored, one live handle. -/
def fixProcSt : ProcState := { tools := [fixTool], processes := ["t-1"], logs := [], emitted := [] }

/-- Witness for C7: observing exit code 7 for the stored tool crashes it
with the event message as its error and releases the handle. -/
theorem c7_monitor_exit_classification_witness :
    get_tool (monitor_observe fixProcSt "t-1" (some 7) "2024-01-02T00:00:00Z").tools "t-1"
      = some { fixTool with
               status := .crashed, ping_ms := Option.none,
               error := some "process exited with code 7",
               updated_at := "2024-01-02T00:00:00Z" }
    ∧ "t-1" ∉ (monitor_observe fixProcSt "t-1" (some 7) "2024-01-02T00:00:00Z").processes :=
  have h := c7_monitor_exit_classification fixProcSt "t-1" (some 7) "2024-01-02T00:00:00Z"
    (by decide)
  ⟨h.2.1 fixTool rfl, h.2.2.2⟩

/-! ### C10 -/

/-- C10: the monitor stores the exit message as the tool's error even for
a clean exit — after code 0 the tool is `stopped` with the non-null error
"process exited with code 0" — whereas a successful explicit stop leaves
the tool `stopped` with a null error. -/
theorem c10_clean_exit_error_vs_stop (st : ProcState) (tool_id now : String)
    (killOk : Bool) :
    (∀ t0, get_tool st.tools tool_id = some t0 →
        get_tool (monitor_observe st tool_id (some 0) now).tools tool_id
          = some { t0 with
                   status := .stopped, ping_ms := Option.none,
                   error := some "process exited with code 0", updated_at := now })
    ∧ (∀ t0, get_tool st.tools tool_id = some t0 →
        (pm_stop_tool st tool_id killOk now).2 = .ok () →
        get_tool (pm_stop_tool st tool_id killOk now).1.tools tool_id
          = some { t0 with
                   status := .stopped, ping_ms := Option.none,
                   error := Option.none, updated_at := now }) := by
  constructor
  · intro t0 h
    exact get_tool_updateRow_some (fun t => rfl) h
  · intro t0 h hok
    unfold pm_stop_tool at hok ⊢
    by_cases hc : st.processes.contains tool_id
    · simp only [hc, Bool.not_true, Bool.false_eq_true, if_false] at hok ⊢
      by_cases hk : killOk
      · simp only [hk, Bool.not_true, Bool.false_eq_true, if_false] at hok ⊢
        exact get_tool_updateRow_some (fun t => rfl) h
      · simp only [eq_false_of_ne_true hk] at hok ⊢
        simp at hok
    · simp only [hc, Bool.not_false, if_true] at hok ⊢
      exact get_tool_updateRow_some (fun t => rfl) h

/-- Witness for C10: the stored tool after a clean exit is `stopped` with
a non-null error, and after an explicit stop with a live handle it is
`stopped` with a null error. -/
theorem c10_clean_exit_error_vs_stop_witness :
    get_tool (monitor_observe fixProcSt "t-1" (some 0) "2024-01-02T00:00:00Z").tools "t-1"
      = some { fixTool with
               status := .stopped, ping_ms := Option.none,
               error := some "process exited with code 0",
               updated_at := "2024-01-02T00:00:00Z" }
    ∧ get_tool (pm_stop_tool fixProcSt "t-1" true "2024-01-02T00:00:00Z").1.tools "t-1"
      = some { fixTool with
               status := .stopped, ping_ms := Option.none,
               error := Option.none, updated_at := "2024-01-02T00:00:00Z" } :=
  have h := c10_clean_exit_error_vs_stop fixProcSt "t-1" "2024-01-02T00:00:00Z" true
  ⟨h.1 fixTool rfl, h.2 fixTool rfl rfl⟩

/-! ### C8 -/

/-- C8: reconciling a manifest entry whose canonical config hash equals
the stored `config_hash` writes nothing — both implementations return the
tools table unchanged (hence every row's `updated_at` and the row count
are untouched) together with the stored row itself. -/
theorem c8_hash_equal_is_noop (tools : List McpTool) (source : McpSource)
    (name : String) (p : McpToolConfigPayload) (genId now : String) (existing : McpTool)
    (hfound : get_tool_by_source_name tools source.id name = some existing) :
    (existing.config_hash = hash_json_tauri (build_config_json name p) →
        apply_config_entry_tauri tools source name p genId now = (tools, some existing))
    ∧ (existing.config_hash = hash_json_desktop (build_config_json name p) →
        apply_config_entry_desktop tools source name p genId now = (tools, some existing)) := by
  constructor
  · intro heq
    simp [apply_config_entry_tauri, hfound, heq]
  · intro heq
    simp [apply_config_entry_desktop, hfound, heq]

/-- A Tauri-hashed copy of the stored tool, for the C8 witness. -/
def c8ToolT : McpTool := { fixTool with config_hash := hash_json_tauri fixConfig }

/-- Witness for C8: re-importing the unchanged "alpha" entry leaves both
stores untouched and returns the stored row. -/
theorem c8_hash_equal_is_noop_witness :
    apply_config_entry_tauri [c8ToolT] fixLocalSource "alpha" fixPayload "gen-1" "n2"
      = ([c8ToolT], some c8ToolT)
    ∧ apply_config_entry_desktop [fixTool] fixLocalSource "alpha" fixPayload "gen-1" "n2"
      = ([fixTool], some fixTool) :=
  ⟨(c8_hash_equal_is_noop [c8ToolT] fixLocalSource "alpha" fixPayload "gen-1" "n2"
      c8ToolT rfl).1 rfl,
   (c8_hash_equal_is_noop [fixTool] fixLocalSource "alpha" fixPayload "gen-1" "n2"
      fixTool rfl).2 rfl⟩

/-! ### C3 -/

/-- C3: for an already-stored tool of a read-only source (non-local kind,
or local flagged read-only), syncing a manifest entry whose config hash
differs leaves `config_json` and `config_hash` untouched, stores the new
canonical config and its hash in the pending columns, and sets
`conflict_status` to `conflict` when a name conflict exists and to
`update_available` otherwise — in both implementations, each with its own
`hash_json`. -/
theorem c3_read_only_divergence_marks_pending (tools : List McpTool)
    (source : McpSource) (name : String) (p : McpToolConfigPayload)
    (genId now : String) (existing : McpTool)
    (hnd : (tools.map McpTool.id).Nodup)
    (hfound : get_tool_by_source_name tools source.id name = some existing)
    (hro : (decide (source.source_type ≠ .local) || source.is_read_only) = true)
    (hdT : existing.config_hash ≠ hash_json_tauri (build_config_json name p))
    (hdD : existing.config_hash ≠ hash_json_desktop (build_config_json name p)) :
    get_tool (apply_config_entry_tauri tools source name p genId now).1 existing.id
      = some { existing with
          pending_config_json := some (build_config_json name p),
          pending_config_hash := some (hash_json_tauri (build_config_json name p)),
          conflict_status :=
            if has_name_conflict tools name source.id then .conflict else .update_available,
          updated_at := now }
    ∧ get_tool (apply_config_entry_desktop tools source name p genId now).1 existing.id
      = some { existing with
          pending_config_json := some (build_config_json name p),
          pending_config_hash := some (hash_json_desktop (build_config_json name p)),
          conflict_status :=
            if has_name_conflict tools name source.id then .conflict else .update_available,
          updated_at := now } := by
  have hget := get_tool_of_by_source_name hfound hnd
  constructor
  · simp only [apply_config_entry_tauri, hfound]
    rw [if_neg hdT, if_pos hro]
    exact get_tool_updateRow_some (fun t => rfl) hget
  · simp only [apply_config_entry_desktop, hfound]
    rw [if_neg hdD, if_pos hro]
    exact get_tool_updateRow_some (fun t => rfl) hget

/-- The read-only cloud source, for the C3 witness. -/
def c3Source : McpSource :=
  { fixLocalSource with
    id := "s-c", name := "Deeting Cloud", source_type := .cloud,
    path_or_url := "https://cloud.example", trust_level := .official,
    is_read_only := true }

/-- A cloud-owned copy of the stored tool with a stale hash, for the C3
witness. -/
def c3Tool : McpTool :=
  { fixTool with
    id := "t-3", source_id := "s-c", source_type := .cloud,
    is_read_only := true, config_hash := "stale" }

set_option maxRecDepth 10000 in
/-- Witness for C3: syncing the differing "alpha" entry against the
read-only cloud source leaves the active config alone and marks the
pending update on both implementations. -/
theorem c3_read_only_divergence_marks_pending_witness :
    get_tool (apply_config_entry_tauri [c3Tool] c3Source "alpha" fixPayload "gen-1" "n2").1 "t-3"
      = some { c3Tool with
          pending_config_json := some (build_config_json "alpha" fixPayload),
          pending_config_hash := some (hash_json_tauri (build_config_json "alpha" fixPayload)),
          conflict_status := .update_available, updated_at := "n2" }
    ∧ get_tool (apply_config_entry_desktop [c3Tool] c3Source "alpha" fixPayload "gen-1" "n2").1 "t-3"
      = some { c3Tool with
          pending_config_json := some (build_config_json "alpha" fixPayload),
          pending_config_hash := some (hash_json_desktop (build_config_json "alpha" fixPayload)),
          conflict_status := .update_available, updated_at := "n2" } :=
  have h := c3_read_only_divergence_marks_pending [c3Tool] c3Source "alpha" fixPayload
    "gen-1" "n2" c3Tool (by decide) rfl rfl (by decide) (by decide)
  ⟨h.1, h.2⟩

/-! ### C5 -/

/-- C5 (amended): in the Tauri sync, every local-source fetch failure is
the `Storage` variant and every remote fetch failure (request error,
non-2xx, body decode) is the `Network` variant; in the desktop backend's
sync — whose error enum has no `Network` or `Storage` variant — a local
parse failure is `Serialization` and every remote failure is `Process`. -/
theorem c5_sync_error_variants :
    (∀ (source : McpSource) (lo : TLocalOutcome) (ro : TRemoteOutcome) (e : McpErrorT),
        tauri_fetch_payload source lo ro = .error e →
        (source.source_type = .local → e.isStorage = true)
        ∧ (source.source_type ≠ .local → e.isNetwork = true))
    ∧ (∀ (source : McpSource) (lo : DLocalOutcome) (ro : DRemoteOutcome) (e : McpErrorD),
        desktop_fetch_payload source lo ro = .error e →
        (source.source_type = .local → ∃ m, e = McpErrorD.serialization m)
        ∧ (source.source_type ≠ .local → e.isProcess = true)) := by
  constructor
  · intro source lo ro e h
    unfold tauri_fetch_payload at h
    constructor
    · intro hl
      rw [if_pos hl] at h
      cases lo with
      | ioError m => cases h; rfl
      | parseError m => cases h; rfl
      | parsed p => cases h
    · intro hl
      rw [if_neg hl] at h
      cases ro with
      | sendError m => cases h; rfl
      | resp code body =>
          have h2 : (if isSuccessStatus code then
              (match body with
               | .error m => Except.error (McpErrorT.network m)
               | .ok p => Except.ok p)
            else Except.error
              (McpErrorT.network ("sync failed with status " ++ toString code)))
            = Except.error e := h
          split at h2
          · cases body with
            | error m => cases h2; rfl
            | ok p => cases h2
          · cases h2; rfl
  · intro source lo ro e h
    unfold desktop_fetch_payload at h
    constructor
    · intro hl
      rw [if_pos hl] at h
      cases lo with
      | parseError m => cases h; exact ⟨m, rfl⟩
      | parsed p => cases h
    · intro hl
      rw [if_neg hl] at h
      cases ro with
      | sendError m => cases h; rfl
      | resp code p =>
          have h2 : (if isSuccessStatus code then Except.ok p
            else Except.error
              (McpErrorD.process ("sync failed with status " ++ toString code)))
            = Except.error e := h
          split at h2
          · cases h2
          · cases h2; rfl

/-- A generic URL source, for the C5 theorems. -/
def c5UrlSource : McpSource :=
  { fixLocalSource with
    id := "s-u", source_type := .url,
    path_or_url := "https://example.com/mcp.json" }

/-- Counterexample for C5: the desktop backend classifies a non-2xx
remote response as its `Process` variant (its error enum has no `Network`
variant at all), where the claim requires `Network`; the Tauri
implementation classifies the same outcome as `Network`. -/
theorem c5_desktop_remote_error_is_process :
    desktop_fetch_payload c5UrlSource (.parsed []) (.resp 500 [])
      = .error (.process ("sync failed with status " ++ toString 500))
    ∧ tauri_fetch_payload c5UrlSource (.ioError "unused") (.resp 500 (.ok []))
      = .error (.network ("sync failed with status " ++ toString 500)) :=
  ⟨rfl, rfl⟩

/-- Witness for C5 (amended): a concrete local read failure is `Storage`
on the Tauri side, and a concrete remote send failure is `Process` on the
desktop side. -/
theorem c5_sync_error_variants_witness :
    (McpErrorT.storage "boom").isStorage = true
    ∧ (McpErrorD.process "connection refused").isProcess = true :=
  ⟨(c5_sync_error_variants.1 fixLocalSource (.ioError "boom") (.sendError "unused")
      (.storage "boom") rfl).1 rfl,
   (c5_sync_error_variants.2 c5UrlSource (.parsed []) (.sendError "connection refused")
      (.process "connection refused") rfl).2 (by decide)⟩

/-! ### C6 -/

/-- Converting a list to items and back is the identity. -/
theorem JsonItems.toList_ofList : ∀ l : List Json, (JsonItems.ofList l).toList = l
  | [] => rfl
  | x :: rest => by rw [JsonItems.ofList, JsonItems.toList, JsonItems.toList_ofList rest]

/-- A required entry with a non-empty key and no non-empty env value puts
its key into the missing list. -/
theorem missingEnvKeys_mem (env : Option (List (String × String))) (k : String)
    (items : List Json) (item : Json) (hmem : item ∈ items)
    (hkey : envConfigKey item = k) (hk : k ≠ "")
    (hreq : envConfigRequired item = true) (hval : envHasValue env k = false) :
    k ∈ missingEnvKeys env items := by
  induction items with
  | nil => cases hmem
  | cons it rest ih =>
    rcases List.mem_cons.mp hmem with rfl | hmem2
    · simp [missingEnvKeys, hkey, hreq, hval, hk]
    · simp only [missingEnvKeys]
      split
      · exact ih hmem2
      · split
        · exact ih hmem2
        · exact List.mem_cons_of_mem _ (ih hmem2)

/-- C6 (amended): required-environment gating lives on the Tauri start
command only.  First conjunct: on the Tauri path a tool with missing
required env keys fails to start with the plain error "missing required
env", ends `pending` with the human-readable message naming the missing
keys as its error, and the same message is emitted as a synthetic `event`
entry on `mcp-log://<tool_id>`.  Second conjunct: the desktop backend's
start route performs no such gating — a tool with no live handle, a
present command and a successful spawn starts `healthy` no matter what
`env_config` demands.  Third conjunct: a declared `env_config` entry with
`required = true`, a non-empty key and no non-empty env value does put
its key into `missing_required_env`, so the Tauri gating fires for it. -/
theorem c6_required_env_gating_tauri_only :
    (∀ (st : ProcState) (tool_id : String) (spawnOk : Bool) (spawnErr now : String)
        (tool : McpTool),
        get_tool st.tools tool_id = some tool →
        missing_required_env tool ≠ [] →
        (start_mcp_tool_tauri st tool_id spawnOk spawnErr now).2
            = .error "missing required env"
        ∧ get_tool (start_mcp_tool_tauri st tool_id spawnOk spawnErr now).1.tools tool_id
            = some { tool with
                status := .pending, ping_ms := Option.none,
                error := some ("missing required env: "
                  ++ String.intercalate ", " (missing_required_env tool)),
                updated_at := now }
        ∧ (start_mcp_tool_tauri st tool_id spawnOk spawnErr now).1.emitted.getLast?
            = some ("mcp-log://" ++ tool_id,
                { timestamp := now, stream := .event,
                  message := "missing required env: "
                    ++ String.intercalate ", " (missing_required_env tool) }))
    ∧ (∀ (st : ProcState) (tool_id : String) (spawnErr now : String) (tool : McpTool)
        (c : String),
        get_tool st.tools tool_id = some tool →
        st.processes.contains tool_id = false →
        tool.command = some c →
        (start_tool_desktop st tool_id true spawnErr now).2
          = .ok { tool with
              status := .healthy, ping_ms := Option.none, error := Option.none,
              updated_at := now })
    ∧ (∀ (env : Option (List (String × String))) (k : String) (items : List Json)
        (item : Json) (fields : JsonFields) (tool : McpTool),
        tool.config_json = .obj fields →
        fields.lookupKey "env_config" = some (Json.mkArr items) →
        tool.env = env →
        item ∈ items → envConfigKey item = k → k ≠ "" →
        envConfigRequired item = true → envHasValue env k = false →
        k ∈ missing_required_env tool) := by
  refine ⟨?_, ?_, ?_⟩
  · intro st tool_id spawnOk spawnErr now tool hfound hmiss
    have hne : (missing_required_env tool).isEmpty = false := by
      cases hm : missing_required_env tool with
      | nil => exact absurd hm hmiss
      | cons a l => rfl
    simp only [start_mcp_tool_tauri, hfound, hne, Bool.not_false, if_true]
    refine ⟨trivial, ?_, ?_⟩
    · exact get_tool_updateRow_some (fun t => rfl) hfound
    · rw [List.getLast?_concat]
  · intro st tool_id spawnErr now tool c hfound hnr hcmd
    have hid : tool.id = tool_id := get_tool_id_eq hfound
    simp only [start_tool_desktop, pm_start_tool, emit_log, set_tool_status, hfound, hid,
      hnr, Bool.not_true, Bool.false_eq_true, if_false, hcmd, Bool.not_false, if_true]
    have h1 := get_tool_updateRow_some
      (f := fun t =>
        { t with
          status := McpToolStatus.starting
          ping_ms := Option.none
          error := Option.none
          updated_at := now })
      (fun t => rfl) hfound
    have h2 := get_tool_updateRow_some
      (f := fun t =>
        { t with
          status := McpToolStatus.healthy
          ping_ms := Option.none
          error := Option.none
          updated_at := now })
      (fun t => rfl) h1
    rw [h2]
    simp [hid, hcmd]
  · intro env k items item fields tool hcfg hlookup henv hmem hkey hk hreq hval
    simp only [missing_required_env, hcfg, hlookup, Json.mkArr, JsonItems.toList_ofList,
      henv]
    exact missingEnvKeys_mem env k items item hmem hkey hk hreq hval

/-- A config declaring a required `API_KEY` env entry. -/
def c6Config : Json :=
  Json.mkObj [("name", Json.str "alpha"), ("command", Json.str "echo"),
    ("env_config", Json.mkArr
      [Json.mkObj [("key", Json.str "API_KEY"), ("required", Json.bool true)]])]

/-- The stored tool with that config and an empty env mapping. -/
def c6Tool : McpTool :=
  { fixTool with config_json := c6Config, config_hash := hash_json_desktop c6Config }

/-- A supervisor holding only that tool, with no live handles. -/
def c6St : ProcState := { tools := [c6Tool], processes := [], logs := [], emitted := [] }

/-- Counterexample for C6: the claim demands that every start path gate on
required env keys, but the desktop backend's start route does not — for
the stored tool whose config requires `API_KEY` with no value present,
the desktop start succeeds and the tool ends `healthy` with no error,
instead of failing into `pending`. -/
theorem c6_desktop_start_skips_env_gating :
    missing_required_env c6Tool = ["API_KEY"]
    ∧ ((start_tool_desktop c6St "t-1" true "" "n2").2.toOption.map
        fun t => (t.status, t.error)) = some (.healthy, Option.none) :=
  ⟨rfl, rfl⟩

/-- Witness for C6 (amended): on the same fixture the Tauri start fails
into `pending` with the message naming `API_KEY` and emits the synthetic
event entry, the desktop start reports the tool `healthy`, and `API_KEY`
is indeed among the missing keys. -/
theorem c6_required_env_gating_tauri_only_witness :
    (start_mcp_tool_tauri c6St "t-1" true "" "n2").2 = .error "missing required env"
    ∧ get_tool (start_mcp_tool_tauri c6St "t-1" true "" "n2").1.tools "t-1"
        = some { c6Tool with
            status := .pending, ping_ms := Option.none,
            error := some "missing required env: API_KEY", updated_at := "n2" }
    ∧ (start_mcp_tool_tauri c6St "t-1" true "" "n2").1.emitted.getLast?
        = some ("mcp-log://t-1",
            { timestamp := "n2", stream := .event,
              message := "missing required env: API_KEY" })
    ∧ (start_tool_desktop c6St "t-1" true "" "n2").2
        = .ok { c6Tool with
            status := .healthy, ping_ms := Option.none, error := Option.none,
            updated_at := "n2" }
    ∧ "API_KEY" ∈ missing_required_env c6Tool :=
  have h1 := c6_required_env_gating_tauri_only.1 c6St "t-1" true "" "n2" c6Tool rfl
    (by decide)
  have h2 := c6_required_env_gating_tauri_only.2.1 c6St "t-1" "" "n2" c6Tool "echo"
    rfl rfl rfl
  have h3 := c6_required_env_gating_tauri_only.2.2 Option.none "API_KEY"
    [Json.mkObj [("key", Json.str "API_KEY"), ("required", Json.bool true)]]
    (Json.mkObj [("key", Json.str "API_KEY"), ("required", Json.bool true)])
    (JsonFields.ofList [("name", Json.str "alpha"), ("command", Json.str "echo"),
      ("env_config", Json.mkArr
        [Json.mkObj [("key", Json.str "API_KEY"), ("required", Json.bool true)]])])
    c6Tool rfl rfl rfl (List.mem_singleton_self _) rfl (by decide) rfl rfl
  ⟨h1.1, h1.2.1, h1.2.2, h2, h3⟩

/-! ### C4 -/

/-- `desktop_update_fields` preserves the row id. -/
theorem desktop_update_fields_id (u : ToolUpsert) (now : String) :
    ∀ t, (desktop_update_fields u now t).id = t.id := fun _ => rfl

/-- `tauri_update_fields` preserves the row id. -/
theorem tauri_update_fields_id (u : ToolUpsert) (now : String) :
    ∀ t, (tauri_update_fields u now t).id = t.id := fun _ => rfl

/-- C4 (amended): after `mark_tool_pending_update(id, p, ph, s)`, the
desktop store's SQL-level `apply_pending_update` promotes exactly the
marked values — `config_hash = ph`, both pending columns null,
`conflict_status = none` — unconditionally.  The command-level apply
paths re-parse the pending JSON and recompute the hash, so they yield
`config_hash = ph` when `ph` is the respective `hash_json` of `p` (which
is how every caller computes it): the second conjunct covers the desktop
PATCH route (canonical hash, by-name locate) and the third the Tauri
command (stored-order hash, by-identifier locate). -/
theorem c4_mark_then_apply_pending :
    (∀ (tools : List McpTool) (id : String) (pj : Json) (ph : String)
        (cs : McpConflictStatus) (now now2 : String) (t0 : McpTool),
        get_tool tools id = some t0 →
        get_tool (apply_pending_update_store
            (mark_tool_pending_update tools id pj ph cs now) id now2) id
          = some { t0 with
              config_json := pj
              config_hash := ph
              pending_config_json := Option.none
              pending_config_hash := Option.none
              conflict_status := .none
              updated_at := now2 })
    ∧ (∀ (tools : List McpTool) (id : String) (pj : Json) (ph : String)
        (cs : McpConflictStatus) (now genId now2 : String) (t0 : McpTool)
        (pl : McpToolConfigPayload),
        get_tool tools id = some t0 →
        find_tool_id_by_source_name tools t0.source_id t0.name = some id →
        payloadOfJson pj = some pl →
        ph = hash_json_desktop pj →
        ((apply_pending_route_desktop
            (mark_tool_pending_update tools id pj ph cs now) id genId now2).2.toOption.map
          fun r => (r.config_hash, r.pending_config_json, r.pending_config_hash,
            r.conflict_status))
          = some (ph, Option.none, Option.none, McpConflictStatus.none))
    ∧ (∀ (tools : List McpTool) (id : String) (pj : Json) (ph : String)
        (cs : McpConflictStatus) (now genId now2 : String) (t0 : McpTool)
        (pl : McpToolConfigPayload),
        get_tool tools id = some t0 →
        find_tool_id_by_source_identifier tools t0.source_id t0.identifier = some id →
        payloadOfJson pj = some pl →
        ph = hash_json_tauri pj →
        ((apply_pending_command_tauri
            (mark_tool_pending_update tools id pj ph cs now) id genId now2).2.toOption.map
          fun r => (r.config_hash, r.pending_config_json, r.pending_config_hash,
            r.conflict_status))
          = some (ph, Option.none, Option.none, McpConflictStatus.none)) := by
  refine ⟨?_, ?_, ?_⟩
  · intro tools id pj ph cs now now2 t0 h
    have h1 : get_tool (mark_tool_pending_update tools id pj ph cs now) id
        = some { t0 with
            pending_config_json := some pj
            pending_config_hash := some ph
            conflict_status := cs
            updated_at := now } :=
      get_tool_updateRow_some (fun t => rfl) h
    exact get_tool_updateRow_some
      (f := fun t =>
        { t with
          config_json := t.pending_config_json.getD t.config_json
          config_hash := t.pending_config_hash.getD t.config_hash
          pending_config_json := Option.none
          pending_config_hash := Option.none
          conflict_status := .none
          updated_at := now2 })
      (fun t => rfl) h1
  · intro tools id pj ph cs now genId now2 t0 pl h hfind hpl hph
    subst hph
    have h1 : get_tool (mark_tool_pending_update tools id pj (hash_json_desktop pj) cs now) id
        = some { t0 with
            pending_config_json := some pj
            pending_config_hash := some (hash_json_desktop pj)
            conflict_status := cs
            updated_at := now } :=
      get_tool_updateRow_some (fun t => rfl) h
    have hfind2 : find_tool_id_by_source_name
        (mark_tool_pending_update tools id pj (hash_json_desktop pj) cs now) t0.source_id t0.name
        = some id := by
      unfold mark_tool_pending_update
      rw [find_tool_id_by_source_name_updateRow tools id
        (fun t =>
          { t with
            pending_config_json := some pj
            pending_config_hash := some (hash_json_desktop pj)
            conflict_status := cs
            updated_at := now })
        t0.source_id t0.name (fun t => rfl) (fun t => rfl) (fun t => rfl)]
      exact hfind
    have hget2 := fun (u : ToolUpsert) =>
      get_tool_updateRow_some (desktop_update_fields_id u now2) h1
    simp only [apply_pending_route_desktop, desktop_upsert_tool, extract_tool_fields,
      h1, hpl, hfind2, hget2, desktop_update_fields, Except.toOption, Option.map_some]
    rfl
  · intro tools id pj ph cs now genId now2 t0 pl h hfind hpl hph
    subst hph
    have h1 : get_tool (mark_tool_pending_update tools id pj (hash_json_tauri pj) cs now) id
        = some { t0 with
            pending_config_json := some pj
            pending_config_hash := some (hash_json_tauri pj)
            conflict_status := cs
            updated_at := now } :=
      get_tool_updateRow_some (fun t => rfl) h
    have hfind2 : find_tool_id_by_source_identifier
        (mark_tool_pending_update tools id pj (hash_json_tauri pj) cs now) t0.source_id t0.identifier
        = some id := by
      unfold mark_tool_pending_update
      rw [find_tool_id_by_source_identifier_updateRow tools id
        (fun t =>
          { t with
            pending_config_json := some pj
            pending_config_hash := some (hash_json_tauri pj)
            conflict_status := cs
            updated_at := now })
        t0.source_id t0.identifier (fun t => rfl) (fun t => rfl) (fun t => rfl)]
      exact hfind
    have hget2 := fun (u : ToolUpsert) =>
      get_tool_updateRow_some (tauri_update_fields_id u now2) h1
    simp only [apply_pending_command_tauri, tauri_upsert_tool, h1, hpl, hfind2,
      hget2, tauri_update_fields, Except.toOption, Option.map_some]
    rfl

/-- The pending config used by the C4 theorems. -/
def c4Pending : Json := Json.mkObj [("command", Json.str "echo2")]

/-- The payload `c4Pending` deserializes to. -/
def c4Payload : McpToolConfigPayload :=
  { command := some "echo2", args := Option.none, env := Option.none,
    description := Option.none, capabilities := Option.none, extra := [] }

/-- The store after marking the stored tool with an arbitrary hash
"deadbeef" that is not the hash of the pending config. -/
def c4Marked : List McpTool :=
  mark_tool_pending_update [fixTool] "t-1" c4Pending "deadbeef" .update_available "n1"

set_option maxRecDepth 10000 in
/-- Counterexample for C4: after `mark_tool_pending_update(t-1, p, ph, s)`
with `ph = "deadbeef"`, the desktop PATCH route's apply succeeds but
recomputes the hash from the pending config — the resulting `config_hash`
is the canonical hash of `p`, which is not `ph`, refuting the claim that
`config_hash` equals `ph` after any successful apply. -/
theorem c4_apply_pending_recomputes_hash :
    ((apply_pending_route_desktop c4Marked "t-1" "gen-1" "n2").2.toOption.map
        fun r => r.config_hash) = some (hash_json_desktop c4Pending)
    ∧ hash_json_desktop c4Pending ≠ "deadbeef" :=
  ⟨rfl, by decide⟩

set_option maxRecDepth 10000 in
/-- Witness for C4 (amended): the three conjuncts evaluated on the stored
tool "alpha" — the SQL-level apply promotes the marked "h-1" verbatim,
and both command-level applies yield the respective recomputed hash. -/
theorem c4_mark_then_apply_pending_witness :
    get_tool (apply_pending_update_store
        (mark_tool_pending_update [fixTool] "t-1" c4Pending "h-1" .update_available "n1")
        "t-1" "n2") "t-1"
      = some { fixTool with
          config_json := c4Pending
          config_hash := "h-1"
          pending_config_json := Option.none
          pending_config_hash := Option.none
          conflict_status := .none
          updated_at := "n2" }
    ∧ ((apply_pending_route_desktop
        (mark_tool_pending_update [fixTool] "t-1" c4Pending
          (hash_json_desktop c4Pending) .update_available "n1") "t-1" "gen-1"
        "n2").2.toOption.map
          fun r => (r.config_hash, r.pending_config_json, r.pending_config_hash,
            r.conflict_status))
      = some (hash_json_desktop c4Pending, Option.none, Option.none,
          McpConflictStatus.none)
    ∧ ((apply_pending_command_tauri
        (mark_tool_pending_update [fixTool] "t-1" c4Pending
          (hash_json_tauri c4Pending) .update_available "n1") "t-1" "gen-1"
        "n2").2.toOption.map
          fun r => (r.config_hash, r.pending_config_json, r.pending_config_hash,
            r.conflict_status))
      = some (hash_json_tauri c4Pending, Option.none, Option.none,
          McpConflictStatus.none) :=
  ⟨c4_mark_then_apply_pending.1 [fixTool] "t-1" c4Pending "h-1" .update_available
      "n1" "n2" fixTool rfl,
   c4_mark_then_apply_pending.2.1 [fixTool] "t-1" c4Pending
      (hash_json_desktop c4Pending) .update_available "n1" "gen-1" "n2" fixTool
      c4Payload rfl rfl rfl rfl,
   c4_mark_then_apply_pending.2.2 [fixTool] "t-1" c4Pending
      (hash_json_tauri c4Pending) .update_available "n1" "gen-1" "n2" fixTool
      c4Payload rfl rfl rfl rfl⟩
